import Mathlib

/-!
# lxcontainer: namespace translation and device provisioning

A shallow embedding of `lxcontainer/namespaces.go` and `lxcontainer/devices.go`.

* Go `error` results are `Option GoError` (`none` is `nil`).
* Go `int`, `uint32` and `os.FileMode` values are `Nat`, `int64` values are `Int`;
  every number that occurs is far below the width of its machine type.
* A Go map used as a lookup table is an association list with distinct keys.
* A nil pointer dereference is the `Panic.nilDereference` outcome of an `Except`.
* `writeDevices` runs on a file system given as the content of each existing path,
  with the faults of the environment (creation, writes, close) as a parameter.
* `setHostname` is the trace of the operations it performs, deferred calls last, with
  the outcome of each system call as a parameter.
-/

namespace Lxcontainer

/-! ## Data model -/

/-- Go `error` values. `errorf` is an error built in this package by `fmt.Errorf`
with the given message; `sink` is an error handed back by `SetConfigItem`, which the
package passes on unchanged. -/
inductive GoError where
  | errorf (msg : String)
  | sink (msg : String)
  deriving DecidableEq, Repr

/-- The type `specs.LinuxNamespaceType`, a Go string type. -/
abbrev LinuxNamespaceType := String

/-- The constant `specs.PIDNamespace`. -/
def specs.PIDNamespace : LinuxNamespaceType := "pid"
/-- The constant `specs.NetworkNamespace`. -/
def specs.NetworkNamespace : LinuxNamespaceType := "network"
/-- The constant `specs.MountNamespace`. -/
def specs.MountNamespace : LinuxNamespaceType := "mount"
/-- The constant `specs.IPCNamespace`. -/
def specs.IPCNamespace : LinuxNamespaceType := "ipc"
/-- The constant `specs.UTSNamespace`. -/
def specs.UTSNamespace : LinuxNamespaceType := "uts"
/-- The constant `specs.UserNamespace`. -/
def specs.UserNamespace : LinuxNamespaceType := "user"
/-- The constant `specs.CgroupNamespace`. -/
def specs.CgroupNamespace : LinuxNamespaceType := "cgroup"
/-- The constant `specs.TimeNamespace`. -/
def specs.TimeNamespace : LinuxNamespaceType := "time"

/-- The constant `unix.CLONE_NEWCGROUP`. -/
def unix.CLONE_NEWCGROUP : Nat := 0x2000000
/-- The constant `unix.CLONE_NEWIPC`. -/
def unix.CLONE_NEWIPC : Nat := 0x8000000
/-- The constant `unix.CLONE_NEWNS`. -/
def unix.CLONE_NEWNS : Nat := 0x20000
/-- The constant `unix.CLONE_NEWNET`. -/
def unix.CLONE_NEWNET : Nat := 0x40000000
/-- The constant `unix.CLONE_NEWPID`. -/
def unix.CLONE_NEWPID : Nat := 0x20000000
/-- The constant `unix.CLONE_NEWTIME`. -/
def unix.CLONE_NEWTIME : Nat := 0x80
/-- The constant `unix.CLONE_NEWUSER`. -/
def unix.CLONE_NEWUSER : Nat := 0x10000000
/-- The constant `unix.CLONE_NEWUTS`. -/
def unix.CLONE_NEWUTS : Nat := 0x4000000

/-- The struct `Namespace` of namespaces.go: backend name and clone flag. -/
structure Namespace where
  Name : String
  CloneFlag : Nat
  deriving DecidableEq, Repr

/-- The struct `specs.LinuxNamespace`; the field `Typ` is the Go field `Type`. -/
structure LinuxNamespace where
  Typ : LinuxNamespaceType
  Path : String
  deriving DecidableEq, Repr

/-- The struct `specs.LinuxDevice`; the field `Typ` is the Go field `Type`. The
pointer fields `FileMode`, `UID` and `GID` are optional values. -/
structure LinuxDevice where
  Path : String
  Typ : String
  Major : Int
  Minor : Int
  FileMode : Option Nat := none
  UID : Option Nat := none
  GID : Option Nat := none
  deriving DecidableEq, Repr

/-- The struct `specs.LinuxDeviceCgroup`; a nil `Major` or `Minor` pointer, the
wildcard, is `none`. -/
structure LinuxDeviceCgroup where
  Allow : Bool
  Typ : String
  Major : Option Int
  Minor : Option Int
  Access : String
  deriving DecidableEq, Repr

/-- The struct `specs.LinuxResources`, of which this package only touches the device
cgroup rules. -/
structure LinuxResources where
  Devices : List LinuxDeviceCgroup := []
  deriving DecidableEq, Repr

/-- The struct `specs.User`, of which this package reads the uid and the gid. -/
structure User where
  UID : Nat
  GID : Nat
  deriving DecidableEq, Repr

/-- The struct `specs.Process`, of which this package reads the user. -/
structure Process where
  User : User
  deriving DecidableEq, Repr

/-- The struct `specs.Linux`. `Devices` is a Go slice that `writeDevices` compares
with nil, so the nil slice (`none`) is kept apart from an empty one (`some []`).
`Resources` is a pointer that `ensureDefaultDevices` compares with nil. -/
structure Linux where
  Namespaces : List LinuxNamespace := []
  Devices : Option (List LinuxDevice) := none
  Resources : Option LinuxResources := none
  deriving DecidableEq, Repr

/-- The part of `Container` (declared outside these two files) that the functions
read and write: the embedded runtime spec. The pointers `Process` and `Linux` are
dereferenced without a check by every function and are taken to be non-nil. -/
structure Container where
  Process : Process
  Linux : Linux
  deriving DecidableEq, Repr

/-- The type `Runtime` (declared outside these two files); `ensureDefaultDevices`
takes one and never uses it. -/
structure Runtime where
  deriving DecidableEq, Repr

/-- A Go runtime panic. -/
inductive Panic where
  | nilDereference
  deriving DecidableEq, Repr

/-- The method `Container.SetConfigItem` (declared outside these two files), taken
as a parameter: given the calls made on it so far, a key and a value, it answers
`none` (nil) or the message of its error. -/
abbrev ConfigSink := List (String × String) → String → String → Option String

def CgroupNamespace : Namespace := ⟨"cgroup", unix.CLONE_NEWCGROUP⟩
def IPCNamespace : Namespace := ⟨"ipc", unix.CLONE_NEWIPC⟩
def MountNamespace : Namespace := ⟨"mnt", unix.CLONE_NEWNS⟩
def NetworkNamespace : Namespace := ⟨"net", unix.CLONE_NEWNET⟩
def PIDNamespace : Namespace := ⟨"pid", unix.CLONE_NEWPID⟩
def TimeNamespace : Namespace := ⟨"time", unix.CLONE_NEWTIME⟩
def UserNamespace : Namespace := ⟨"user", unix.CLONE_NEWUSER⟩
def UTSNamespace : Namespace := ⟨"uts", unix.CLONE_NEWUTS⟩

/-- The table `namespaceMap`: the entry for `specs.TimeNamespace` is commented out
in the source and so is absent here. A Go map index `namespaceMap[t]` is
`namespaceMap.lookup t`. -/
def namespaceMap : List (LinuxNamespaceType × Namespace) :=
  [ (specs.CgroupNamespace, CgroupNamespace),
    (specs.IPCNamespace, IPCNamespace),
    (specs.MountNamespace, MountNamespace),
    (specs.NetworkNamespace, NetworkNamespace),
    (specs.PIDNamespace, PIDNamespace),
    (specs.UserNamespace, UserNamespace),
    (specs.UTSNamespace, UTSNamespace) ]

/-! ## cloneFlags -/

/-- The loop of `cloneFlags` with the accumulator `flags`: a kind missing from
`namespaceMap` returns `(0, err)` at once, otherwise the clone flag is or-ed in. -/
def cloneFlagsLoop : List LinuxNamespace → Nat → Nat × Option GoError
  | [], flags => (flags, none)
  | ns :: rest, flags =>
    match namespaceMap.lookup ns.Typ with
    | none => (0, some (GoError.errorf ("namespace " ++ ns.Typ ++ " is not supported")))
    | some n => cloneFlagsLoop rest (flags ||| n.CloneFlag)

/-- The function `cloneFlags` of namespaces.go. -/
def cloneFlags (namespaces : List LinuxNamespace) : Nat × Option GoError :=
  cloneFlagsLoop namespaces 0

/-- The clone flag registered for the kind of a request, `0` for a kind that has
no entry. -/
def registeredFlag (ns : LinuxNamespace) : Nat :=
  match namespaceMap.lookup ns.Typ with
  | none => 0
  | some n => n.CloneFlag

/-- The bitwise OR of the registered clone flag of every request of a list. -/
def orOfFlags (namespaces : List LinuxNamespace) : Nat :=
  (namespaces.map registeredFlag).foldr (fun a b => a ||| b) 0

/-! ## configureNamespaces -/

/-- The body of `configureNamespaces` from a given point of its loop on: `seen` is
the key set of `seenNamespaceTypes`, `cloneNamespaces` the clone list and `calls`
the `SetConfigItem` calls made so far, as (key, value) pairs. When the requests are
used up, the statement after the loop makes the `lxc.namespace.clone` call. The
result is every `SetConfigItem` call made, in order, and the returned error. -/
def configureNamespacesFrom (SetConfigItem : ConfigSink) :
    List LinuxNamespace → List LinuxNamespaceType → List String → List (String × String) →
    List (String × String) × Option GoError
  | [], _, cloneNamespaces, calls =>
    (calls ++ [("lxc.namespace.clone", " ".intercalate cloneNamespaces)],
      (SetConfigItem calls "lxc.namespace.clone" (" ".intercalate cloneNamespaces)).map
        GoError.sink)
  | ns :: rest, seen, cloneNamespaces, calls =>
    if ns.Typ ∈ seen then
      (calls, some (GoError.errorf ("duplicate namespace " ++ ns.Typ)))
    else
      match namespaceMap.lookup ns.Typ with
      | none => (calls, some (GoError.errorf ("unsupported namespace " ++ ns.Typ)))
      | some n =>
        if ns.Path = "" then
          configureNamespacesFrom SetConfigItem rest (ns.Typ :: seen)
            (cloneNamespaces ++ [n.Name]) calls
        else
          match SetConfigItem calls ("lxc.namespace.share." ++ n.Name) ns.Path with
          | some err =>
            (calls ++ [("lxc.namespace.share." ++ n.Name, ns.Path)], some (GoError.sink err))
          | none =>
            configureNamespacesFrom SetConfigItem rest (ns.Typ :: seen) cloneNamespaces
              (calls ++ [("lxc.namespace.share." ++ n.Name, ns.Path)])

/-- The function `configureNamespaces` of namespaces.go: the `SetConfigItem` calls it
makes, in order, and the error it returns. -/
def configureNamespaces (SetConfigItem : ConfigSink) (c : Container) :
    List (String × String) × Option GoError :=
  configureNamespacesFrom SetConfigItem c.Linux.Namespaces [] [] []

/-- The backend name registered for the kind of a request, empty for a kind that
has no entry. -/
def backendName (ns : LinuxNamespace) : String :=
  match namespaceMap.lookup ns.Typ with
  | none => ""
  | some n => n.Name

/-- The sharing directives of a request list: for each request with a non-empty
path, in request order, the pair of the per-kind sharing key and the path. -/
def shareDirectives (namespaces : List LinuxNamespace) : List (String × String) :=
  (namespaces.filter (fun ns => ns.Path ≠ "")).map
    (fun ns => ("lxc.namespace.share." ++ backendName ns, ns.Path))

/-- The clone list of a request list: the backend names of the requests with an
empty path, in request order. -/
def cloneNames (namespaces : List LinuxNamespace) : List String :=
  (namespaces.filter (fun ns => ns.Path = "")).map backendName

/-- A request list is valid when no kind occurs twice and every kind has an entry
in `namespaceMap`. -/
def ValidRequests (namespaces : List LinuxNamespace) : Prop :=
  (namespaces.map (fun ns => ns.Typ)).Nodup ∧
    ∀ ns ∈ namespaces, ∃ n, namespaceMap.lookup ns.Typ = some n

/-! ## Devices (devices.go) -/

/-- The loop of `isDeviceEnabled` over the device list of the spec. -/
def isDeviceEnabledLoop : List LinuxDevice → LinuxDevice → Bool
  | [], _ => false
  | specDev :: rest, dev =>
    if specDev.Path = dev.Path then true else isDeviceEnabledLoop rest dev

/-- The function `isDeviceEnabled` of devices.go; ranging over a nil slice runs no
iteration. -/
def isDeviceEnabled (spec : Container) (dev : LinuxDevice) : Bool :=
  isDeviceEnabledLoop (spec.Linux.Devices.getD []) dev

/-- The function `addDevicePerms` of devices.go. It reads and assigns
`spec.Linux.Resources.Devices`, which panics when `spec.Linux.Resources` is nil. -/
def addDevicePerms (spec : Container) (devType : String) (major minor : Option Int)
    (access : String) : Except Panic Container :=
  match spec.Linux.Resources with
  | none => Except.error Panic.nilDereference
  | some res =>
    Except.ok { spec with Linux := { spec.Linux with Resources := some { res with
      Devices := res.Devices ++
        [{ Allow := true, Typ := devType, Major := major, Minor := minor,
           Access := access }] } } }

/-- The function `addDevice` of devices.go; appending to a nil slice gives a
one-element slice. -/
def addDevice (spec : Container) (dev : LinuxDevice) (mode uid gid : Nat)
    (access : String) : Except Panic Container :=
  let dev1 : LinuxDevice := { dev with FileMode := some mode, UID := some uid, GID := some gid }
  let spec1 : Container := { spec with Linux := { spec.Linux with
    Devices := some (spec.Linux.Devices.getD [] ++ [dev1]) } }
  addDevicePerms spec1 dev1.Typ (some dev1.Major) (some dev1.Minor) access

/-- The list `devices` of `ensureDefaultDevices`. -/
def defaultDevices : List LinuxDevice :=
  [ { Path := "/dev/null", Typ := "c", Major := 1, Minor := 3 },
    { Path := "/dev/zero", Typ := "c", Major := 1, Minor := 5 },
    { Path := "/dev/full", Typ := "c", Major := 1, Minor := 7 },
    { Path := "/dev/random", Typ := "c", Major := 1, Minor := 8 },
    { Path := "/dev/urandom", Typ := "c", Major := 1, Minor := 9 },
    { Path := "/dev/tty", Typ := "c", Major := 5, Minor := 0 } ]

/-- The last loop of `ensureDefaultDevices`: each device of the list that is not
enabled in the spec is added. -/
def addMissingDevices (mode uid gid : Nat) :
    List LinuxDevice → Container → Except Panic Container
  | [], spec => Except.ok spec
  | dev :: rest, spec =>
    if !isDeviceEnabled spec dev then
      match addDevice spec dev mode uid gid "rwm" with
      | Except.error p => Except.error p
      | Except.ok spec1 => addMissingDevices mode uid gid rest spec1
    else
      addMissingDevices mode uid gid rest spec

/-- The function `ensureDefaultDevices` of devices.go. The two `addDevicePerms`
calls come before the nil check of `spec.Linux.Resources`, as in the source. The
result is the spec after the call and the returned error, or a panic. -/
def ensureDefaultDevices (_c : Runtime) (spec : Container) :
    Except Panic (Container × Option GoError) :=
  let mode : Nat := 0o666
  let uid := spec.Process.User.UID
  let gid := spec.Process.User.GID
  let ptmx : LinuxDevice := { Path := "/dev/ptmx", Typ := "c", Major := 5, Minor := 2 }
  match addDevicePerms spec "c" (some ptmx.Major) (some ptmx.Minor) "rwm" with
  | Except.error p => Except.error p
  | Except.ok spec1 =>
    let pts0 : LinuxDevice := { Path := "/dev/pts/0", Typ := "c", Major := 88, Minor := 0 }
    match addDevicePerms spec1 "c" (some pts0.Major) none "rwm" with
    | Except.error p => Except.error p
    | Except.ok spec2 =>
      let spec3 : Container :=
        if spec2.Linux.Resources = none then
          { spec2 with Linux := { spec2.Linux with Resources := some {} } }
        else spec2
      match addMissingDevices mode uid gid defaultDevices spec3 with
      | Except.error p => Except.error p
      | Except.ok spec4 => Except.ok (spec4, none)

/-- The cgroup rules of a spec, none when the resources section is absent. -/
def cgroupRules (spec : Container) : List LinuxDeviceCgroup :=
  match spec.Linux.Resources with
  | none => []
  | some res => res.Devices

/-- The device descriptors of a spec, none for a nil slice. -/
def deviceList (spec : Container) : List LinuxDevice :=
  spec.Linux.Devices.getD []

/-- The allow rule that `addDevice` appends for a descriptor. -/
def deviceRule (dev : LinuxDevice) (access : String) : LinuxDeviceCgroup :=
  { Allow := true, Typ := dev.Typ, Major := some dev.Major, Minor := some dev.Minor,
    Access := access }

/-- A template descriptor with mode, uid and gid set, as `addDevice` appends it. -/
def withOwner (dev : LinuxDevice) (mode uid gid : Nat) : LinuxDevice :=
  { dev with FileMode := some mode, UID := some uid, GID := some gid }

/-- The descriptors a run of `addMissingDevices` appends to the device list `cur`. -/
def missingDevices (mode uid gid : Nat) : List LinuxDevice → List LinuxDevice → List LinuxDevice
  | [], _ => []
  | dev :: rest, cur =>
    if isDeviceEnabledLoop cur dev then missingDevices mode uid gid rest cur
    else withOwner dev mode uid gid ::
      missingDevices mode uid gid rest (cur ++ [withOwner dev mode uid gid])

/-- The number of descriptors of a list that have the given path. -/
def countPath (p : String) (l : List LinuxDevice) : Nat :=
  l.countP (fun d => d.Path = p)

/-- The cgroup rules of the spec a call returned, `none` after a panic. -/
def rulesAfter (r : Except Panic (Container × Option GoError)) :
    Option (List LinuxDeviceCgroup) :=
  match r with
  | Except.ok (spec, _) => some (cgroupRules spec)
  | Except.error _ => none

/-- The device descriptors of the spec a call returned, `none` after a panic. -/
def devicesAfter (r : Except Panic (Container × Option GoError)) :
    Option (List LinuxDevice) :=
  match r with
  | Except.ok (spec, _) => some (deviceList spec)
  | Except.error _ => none

/-- The first rule `ensureDefaultDevices` appends: character devices 5:2. -/
def ptmxRule : LinuxDeviceCgroup :=
  { Allow := true, Typ := "c", Major := some 5, Minor := some 2, Access := "rwm" }

/-- The second rule `ensureDefaultDevices` appends: character devices of major 88,
any minor. -/
def ptsRule : LinuxDeviceCgroup :=
  { Allow := true, Typ := "c", Major := some 88, Minor := none, Access := "rwm" }

/-- The paths of the six default devices. -/
def defaultPaths : List String :=
  ["/dev/null", "/dev/zero", "/dev/full", "/dev/random", "/dev/urandom", "/dev/tty"]

/-! ## writeDevices (devices.go) -/

/-- The errors `writeDevices` hands back from the `os` and `fmt` calls: `exist` is the
error of `os.OpenFile` with `O_CREATE|O_EXCL` on a path that exists already, `other`
any other failure, with its message. -/
inductive OsError where
  | exist
  | other (msg : String)
  deriving DecidableEq, Repr

/-- The files of a file system: the content of each path that exists. The
permission bits of a file are left out. -/
abbrev FileSystem := String → Option String

/-- The faults of the environment during one call of `writeDevices`: `create` is the
error, if any, of creating a file that does not exist yet; `write i` tells whether
the `Fprintf` call number `i` (from 0) fails, after how many characters and with
which message; `close` is the error, if any, of the last `Close`. -/
structure IOFaults where
  create : Option String := none
  write : Nat → Option (Nat × String) := fun _ => none
  close : Option String := none

/-- The verb `%o` of `fmt` on an unsigned integer, which is what `os.FileMode` is
printed as under `%o`: the octal digits, without a leading `0` (no `#` flag). -/
def formatOctal (n : Nat) : String :=
  String.mk (Nat.toDigits 8 n)

/-- The verb `%d` of `fmt` on a `uint32`. -/
def formatUint (n : Nat) : String :=
  toString n

/-- The verb `%d` of `fmt` on an `int64`. -/
def formatInt (i : Int) : String :=
  toString i

/-- The text one iteration of the loop of `writeDevices` prints for the descriptor
`d`, by the format `"%s %s %d %d %o %d:%d\n"`. -/
def deviceLine (spec : Container) (d : LinuxDevice) : String :=
  let uid := match d.UID with
    | some u => u
    | none => spec.Process.User.UID
  let gid := match d.GID with
    | some g => g
    | none => spec.Process.User.GID
  let mode := match d.FileMode with
    | some m => m
    | none => 0o600
  d.Path ++ " " ++ d.Typ ++ " " ++ formatInt d.Major ++ " " ++ formatInt d.Minor ++ " " ++
    formatOctal mode ++ " " ++ formatUint uid ++ ":" ++ formatUint gid ++ "\n"

/-- The loop of `writeDevices` from the descriptor number `i` on, with the content
written to the file so far: the content of the file when the loop is left and the
error of the failed `Fprintf`, if one failed (the result of the `Close` after a
failed write is dropped). -/
def writeDevicesLoop (faults : IOFaults) (spec : Container) :
    List LinuxDevice → Nat → String → String × Option OsError
  | [], _, content => (content, none)
  | d :: rest, i, content =>
    match faults.write i with
    | some (n, msg) => (content ++ (deviceLine spec d).take n, some (OsError.other msg))
    | none => writeDevicesLoop faults spec rest (i + 1) (content ++ deviceLine spec d)

/-- The function `writeDevices` of devices.go: the file system after the call and
the returned error. -/
def writeDevices (faults : IOFaults) (fs : FileSystem) (dst : String) (spec : Container) :
    FileSystem × Option OsError :=
  match spec.Linux.Devices with
  | none => (fs, none)
  | some devices =>
    match fs dst with
    | some _ => (fs, some OsError.exist)
    | none =>
      match faults.create with
      | some msg => (fs, some (OsError.other msg))
      | none =>
        let written := writeDevicesLoop faults spec devices 0 ""
        let fs1 : FileSystem := fun p => if p = dst then some written.1 else fs p
        match written.2 with
        | some err => (fs1, some err)
        | none => (fs1, faults.close.map OsError.other)

/-! ## setHostname (namespaces.go) -/

/-- The operations `setHostname` performs on the thread, the files and the kernel. -/
inductive Op where
  | lockOSThread
  | openForeign (nsPath : String)
  | openSelf
  | setnsForeign
  | sethostname (hostname : String)
  | setnsSelf
  | closeSelf
  | closeForeign
  | unlockOSThread
  deriving DecidableEq, Repr

/-- The outcome of each system call of one run of `setHostname`, `none` for success
and the message of the error otherwise; every call is made at most once in a run. -/
structure Syscalls where
  openForeign : Option String := none
  openSelf : Option String := none
  setnsForeign : Option String := none
  sethostname : Option String := none
  setnsSelf : Option String := none

/-- The function `setHostname` of namespaces.go: the operations performed, in order,
the deferred ones last, and the returned error. `quote` is `strconv.Quote`, the verb
`%q`. -/
def setHostname (sys : Syscalls) (quote : String → String) (nsPath hostname : String) :
    List Op × Option GoError :=
  match sys.openForeign with
  | some err =>
    ([Op.lockOSThread, Op.openForeign nsPath, Op.unlockOSThread],
      some (GoError.errorf
        ("failed to open container uts namespace " ++ quote nsPath ++ ": " ++ err)))
  | none =>
    match sys.openSelf with
    | some err =>
      ([Op.lockOSThread, Op.openForeign nsPath, Op.openSelf, Op.closeForeign,
          Op.unlockOSThread],
        some (GoError.errorf ("failed to open uts namespace : " ++ err)))
    | none =>
      match sys.setnsForeign with
      | some err =>
        ([Op.lockOSThread, Op.openForeign nsPath, Op.openSelf, Op.setnsForeign,
            Op.setnsSelf, Op.closeSelf, Op.closeForeign, Op.unlockOSThread],
          some (GoError.errorf
            ("failed to switch to UTS namespace " ++ nsPath ++ ": " ++ err)))
      | none =>
        match sys.sethostname with
        | some err =>
          ([Op.lockOSThread, Op.openForeign nsPath, Op.openSelf, Op.setnsForeign,
              Op.sethostname hostname, Op.setnsSelf, Op.closeSelf, Op.closeForeign,
              Op.unlockOSThread],
            some (GoError.errorf ("unix.Sethostname failed: " ++ err)))
        | none =>
          ([Op.lockOSThread, Op.openForeign nsPath, Op.openSelf, Op.setnsForeign,
              Op.sethostname hostname, Op.setnsSelf, Op.closeSelf, Op.closeForeign,
              Op.unlockOSThread],
            none)

/-- The position of the lowest set bit of a clone flag, among the first 64. -/
def bitIndex (flag : Nat) : Nat :=
  ((List.range 64).find? (fun i => flag.testBit i)).getD 0

/-- The bit of the clone flag registered for a kind, `0` for an unregistered kind. -/
def kindBit (t : LinuxNamespaceType) : Nat :=
  match namespaceMap.lookup t with
  | none => 0
  | some n => bitIndex n.CloneFlag

/-- The error message of the first write that the sink rejects when the writes of a
list are made on it one after the other, after the calls of `history`; `none` when
the sink accepts them all. -/
def firstRejected (SetConfigItem : ConfigSink) :
    List (String × String) → List (String × String) → Option String
  | _, [] => none
  | history, kv :: rest =>
    match SetConfigItem history kv.1 kv.2 with
    | some err => some err
    | none => firstRejected SetConfigItem (history ++ [kv]) rest

/-- The kinds that have an entry in `namespaceMap`. -/
def registeredKinds : List LinuxNamespaceType :=
  ["cgroup", "ipc", "mount", "network", "pid", "user", "uts"]

/-! ## Lemmas on the registry -/

theorem lookup_isSome_iff (t : LinuxNamespaceType) :
    (∃ n, namespaceMap.lookup t = some n) ↔ t ∈ registeredKinds := by
  constructor
  · rintro ⟨n, hn⟩
    by_contra hmem
    simp only [registeredKinds, List.mem_cons, List.mem_singleton, List.mem_nil_iff,
      or_false, not_or] at hmem
    obtain ⟨h1, h2, h3, h4, h5, h6, h7⟩ := hmem
    have e1 : (t == "cgroup") = false := beq_eq_false_iff_ne.mpr h1
    have e2 : (t == "ipc") = false := beq_eq_false_iff_ne.mpr h2
    have e3 : (t == "mount") = false := beq_eq_false_iff_ne.mpr h3
    have e4 : (t == "network") = false := beq_eq_false_iff_ne.mpr h4
    have e5 : (t == "pid") = false := beq_eq_false_iff_ne.mpr h5
    have e6 : (t == "user") = false := beq_eq_false_iff_ne.mpr h6
    have e7 : (t == "uts") = false := beq_eq_false_iff_ne.mpr h7
    simp [namespaceMap, List.lookup, specs.CgroupNamespace, specs.IPCNamespace,
      specs.MountNamespace, specs.NetworkNamespace, specs.PIDNamespace,
      specs.UserNamespace, specs.UTSNamespace, e1, e2, e3, e4, e5, e6, e7] at hn
  · intro hmem
    simp only [registeredKinds, List.mem_cons, List.mem_singleton, List.mem_nil_iff,
      or_false] at hmem
    rcases hmem with h | h | h | h | h | h | h <;> subst h <;> exact ⟨_, rfl⟩

theorem lookup_time : namespaceMap.lookup specs.TimeNamespace = none := by
  rfl

theorem orOfFlags_cons (ns : LinuxNamespace) (rest : List LinuxNamespace) :
    orOfFlags (ns :: rest) = registeredFlag ns ||| orOfFlags rest := by
  simp [orOfFlags]

theorem orOfFlags_perm {l₁ l₂ : List LinuxNamespace} (h : l₁.Perm l₂) :
    orOfFlags l₁ = orOfFlags l₂ := by
  induction h with
  | nil => rfl
  | cons x _ ih => rw [orOfFlags_cons, orOfFlags_cons, ih]
  | swap x y l =>
    simp only [orOfFlags_cons]
    rw [← Nat.lor_assoc, ← Nat.lor_assoc, Nat.lor_comm (registeredFlag y)]
  | trans _ _ ih₁ ih₂ => rw [ih₁, ih₂]

/-! ## Lemmas on cloneFlags -/

theorem cloneFlagsLoop_registered (namespaces : List LinuxNamespace)
    (h : ∀ ns ∈ namespaces, ∃ n, namespaceMap.lookup ns.Typ = some n) (flags : Nat) :
    cloneFlagsLoop namespaces flags = (flags ||| orOfFlags namespaces, none) := by
  induction namespaces generalizing flags with
  | nil => simp [cloneFlagsLoop, orOfFlags]
  | cons ns rest ih =>
    obtain ⟨n, hn⟩ := h ns (List.mem_cons_self _ _)
    have hrest : ∀ x ∈ rest, ∃ n, namespaceMap.lookup x.Typ = some n :=
      fun x hx => h x (List.mem_cons_of_mem _ hx)
    rw [cloneFlagsLoop, hn]
    simp only
    rw [ih hrest, orOfFlags_cons, registeredFlag, hn, Nat.lor_assoc]

theorem cloneFlagsLoop_find (namespaces : List LinuxNamespace) (flags : Nat) :
    cloneFlagsLoop namespaces flags =
      match namespaces.find? (fun ns => (namespaceMap.lookup ns.Typ).isNone) with
      | some ns => (0, some (GoError.errorf ("namespace " ++ ns.Typ ++ " is not supported")))
      | none => (flags ||| orOfFlags namespaces, none) := by
  induction namespaces generalizing flags with
  | nil => simp [cloneFlagsLoop, orOfFlags]
  | cons ns rest ih =>
    rw [cloneFlagsLoop]
    cases hn : namespaceMap.lookup ns.Typ with
    | none => simp [List.find?, hn]
    | some n =>
      simp only [List.find?, hn, Option.isNone_some]
      rw [ih, orOfFlags_cons, registeredFlag, hn, Nat.lor_assoc]

/-! ## Claims on cloneFlags -/

/-- C1: for every request list whose kinds are all among cgroup, ipc, mount, network,
pid, user and uts, `cloneFlags` returns no error and the bitwise OR of the registered
clone flag of every request; every permutation of the list gives the same result. -/
theorem cloneFlags_or_of_registered (namespaces : List LinuxNamespace)
    (h : ∀ ns ∈ namespaces,
      ns.Typ ∈ ["cgroup", "ipc", "mount", "network", "pid", "user", "uts"]) :
    cloneFlags namespaces =
        ((namespaces.map registeredFlag).foldr (fun a b => a ||| b) 0, none) ∧
      ∀ p : List LinuxNamespace, p.Perm namespaces → cloneFlags p = cloneFlags namespaces := by
  have hreg : ∀ l : List LinuxNamespace, l.Perm namespaces →
      cloneFlags l = (orOfFlags l, none) := by
    intro l hl
    have hl2 : ∀ ns ∈ l, ∃ n, namespaceMap.lookup ns.Typ = some n :=
      fun ns hns => (lookup_isSome_iff ns.Typ).mpr (h ns (hl.subset hns))
    rw [cloneFlags, cloneFlagsLoop_registered l hl2 0, Nat.zero_or]
  refine ⟨hreg namespaces (List.Perm.refl _), ?_⟩
  intro p hp
  rw [hreg p hp, hreg namespaces (List.Perm.refl _), orOfFlags_perm hp]

/-- Witness of C1 on the requests pid, network, pid. -/
theorem cloneFlags_or_of_registered_witness :
    cloneFlags [⟨"pid", ""⟩, ⟨"network", "/proc/1/ns/net"⟩, ⟨"pid", ""⟩] =
        (([⟨"pid", ""⟩, ⟨"network", "/proc/1/ns/net"⟩, ⟨"pid", ""⟩].map
          registeredFlag).foldr (fun a b => a ||| b) 0, none) ∧
      ∀ p : List LinuxNamespace,
        p.Perm [⟨"pid", ""⟩, ⟨"network", "/proc/1/ns/net"⟩, ⟨"pid", ""⟩] →
        cloneFlags p = cloneFlags [⟨"pid", ""⟩, ⟨"network", "/proc/1/ns/net"⟩, ⟨"pid", ""⟩] :=
  cloneFlags_or_of_registered [⟨"pid", ""⟩, ⟨"network", "/proc/1/ns/net"⟩, ⟨"pid", ""⟩]
    (by simp)

/-- C2: `cloneFlags` fails exactly when some request has a kind without an entry in
`namespaceMap`, such as time; it then returns the bitmask 0 and an error naming the
first such kind in request order, and otherwise the OR of the flags; a list that
repeats a supported kind is not rejected. -/
theorem cloneFlags_fails_iff_unregistered :
    (∀ namespaces : List LinuxNamespace,
      (cloneFlags namespaces).2 ≠ none ↔
        ∃ ns ∈ namespaces, namespaceMap.lookup ns.Typ = none) ∧
    (∀ namespaces : List LinuxNamespace,
      cloneFlags namespaces =
        match namespaces.find? (fun ns => (namespaceMap.lookup ns.Typ).isNone) with
        | some ns => (0, some (GoError.errorf ("namespace " ++ ns.Typ ++ " is not supported")))
        | none => (orOfFlags namespaces, none)) ∧
    namespaceMap.lookup specs.TimeNamespace = none ∧
    cloneFlags [⟨specs.PIDNamespace, ""⟩, ⟨specs.PIDNamespace, ""⟩] =
      (unix.CLONE_NEWPID, none) := by
  have hfind : ∀ namespaces : List LinuxNamespace,
      cloneFlags namespaces =
        match namespaces.find? (fun ns => (namespaceMap.lookup ns.Typ).isNone) with
        | some ns => (0, some (GoError.errorf ("namespace " ++ ns.Typ ++ " is not supported")))
        | none => (orOfFlags namespaces, none) := by
    intro namespaces
    rw [cloneFlags, cloneFlagsLoop_find, Nat.zero_or]
  refine ⟨?_, hfind, lookup_time, by decide⟩
  intro namespaces
  rw [hfind]
  cases hf : namespaces.find? (fun ns => (namespaceMap.lookup ns.Typ).isNone) with
  | none =>
    simp only [ne_eq, not_true_eq_false, false_iff, not_exists, not_and]
    intro ns hns hnone
    have := List.find?_eq_none.mp hf ns hns
    simp [hnone] at this
  | some ns =>
    simp only [ne_eq, reduceCtorEq, not_false_eq_true, true_iff]
    refine ⟨ns, List.mem_of_find?_eq_some hf, ?_⟩
    have := List.find?_some hf
    simpa using this

/-! ## Lemmas on configureNamespaces -/

theorem share_key_ne_clone_key (name : String) :
    "lxc.namespace.share." ++ name ≠ "lxc.namespace.clone" := by
  intro h
  have hd := congrArg String.data h
  simp [String.data_append] at hd

theorem shareDirectives_nil : shareDirectives [] = [] := rfl

theorem cloneNames_nil : cloneNames [] = [] := rfl

theorem shareDirectives_cons_empty (ns : LinuxNamespace) (rest : List LinuxNamespace)
    (h : ns.Path = "") : shareDirectives (ns :: rest) = shareDirectives rest := by
  simp [shareDirectives, List.filter, h]

theorem shareDirectives_cons_path (ns : LinuxNamespace) (rest : List LinuxNamespace)
    (n : Namespace) (hn : namespaceMap.lookup ns.Typ = some n) (h : ¬ ns.Path = "") :
    shareDirectives (ns :: rest) =
      ("lxc.namespace.share." ++ n.Name, ns.Path) :: shareDirectives rest := by
  simp [shareDirectives, List.filter, h, backendName, hn]

theorem cloneNames_cons_empty (ns : LinuxNamespace) (rest : List LinuxNamespace)
    (n : Namespace) (hn : namespaceMap.lookup ns.Typ = some n) (h : ns.Path = "") :
    cloneNames (ns :: rest) = n.Name :: cloneNames rest := by
  simp [cloneNames, List.filter, h, backendName, hn]

theorem cloneNames_cons_path (ns : LinuxNamespace) (rest : List LinuxNamespace)
    (h : ¬ ns.Path = "") : cloneNames (ns :: rest) = cloneNames rest := by
  simp [cloneNames, List.filter, h]

theorem shareDirectives_key_ne_clone (namespaces : List LinuxNamespace) :
    ∀ kv ∈ shareDirectives namespaces, kv.1 ≠ "lxc.namespace.clone" := by
  intro kv hkv
  simp only [shareDirectives, List.mem_map] at hkv
  obtain ⟨ns, _, rfl⟩ := hkv
  exact share_key_ne_clone_key _

/-- With a sink that accepts every write, the run over a valid stretch of requests
only extends the seen set, the clone list and the calls. -/
theorem configureNamespacesFrom_valid_append (SetConfigItem : ConfigSink)
    (hsink : ∀ h k v, SetConfigItem h k v = none)
    (pre rest : List LinuxNamespace) (seen : List LinuxNamespaceType)
    (cloneNamespaces : List String) (calls : List (String × String))
    (hnodup : (pre.map (fun ns => ns.Typ)).Nodup)
    (hseen : ∀ ns ∈ pre, ns.Typ ∉ seen)
    (hreg : ∀ ns ∈ pre, ∃ n, namespaceMap.lookup ns.Typ = some n) :
    configureNamespacesFrom SetConfigItem (pre ++ rest) seen cloneNamespaces calls =
      configureNamespacesFrom SetConfigItem rest ((pre.map (fun ns => ns.Typ)).reverse ++ seen)
        (cloneNamespaces ++ cloneNames pre) (calls ++ shareDirectives pre) := by
  induction pre generalizing seen cloneNamespaces calls with
  | nil => simp [shareDirectives_nil, cloneNames_nil]
  | cons ns pre ih =>
    obtain ⟨n, hn⟩ := hreg ns (List.mem_cons_self _ _)
    have hns : ns.Typ ∉ seen := hseen ns (List.mem_cons_self _ _)
    rw [List.map_cons, List.nodup_cons] at hnodup
    have hseen2 : ∀ x ∈ pre, x.Typ ∉ ns.Typ :: seen := by
      intro x hx hmem
      rcases List.mem_cons.mp hmem with h | h
      · exact hnodup.1 (h ▸ List.mem_map_of_mem (fun ns => ns.Typ) hx)
      · exact hseen x (List.mem_cons_of_mem _ hx) h
    have hreg2 : ∀ x ∈ pre, ∃ n, namespaceMap.lookup x.Typ = some n :=
      fun x hx => hreg x (List.mem_cons_of_mem _ hx)
    rw [List.cons_append, configureNamespacesFrom, if_neg hns, hn]
    simp only
    by_cases hp : ns.Path = ""
    · rw [if_pos hp, ih _ _ _ hnodup.2 hseen2 hreg2, shareDirectives_cons_empty _ _ hp,
        cloneNames_cons_empty _ _ n hn hp]
      simp
    · rw [if_neg hp, hsink]
      simp only
      rw [ih _ _ _ hnodup.2 hseen2 hreg2, shareDirectives_cons_path _ _ n hn hp,
        cloneNames_cons_path _ _ hp]
      simp

/-- Whatever the sink does, a run that returns an error built by `fmt.Errorf`
stopped at the first request that repeats a kind or has an unregistered kind, after
making exactly the sharing calls of the requests before it. -/
theorem configureNamespacesFrom_errorf (SetConfigItem : ConfigSink)
    (namespaces : List LinuxNamespace) (seen : List LinuxNamespaceType)
    (cloneNamespaces : List String) (calls tr : List (String × String)) (msg : String)
    (h : configureNamespacesFrom SetConfigItem namespaces seen cloneNamespaces calls =
      (tr, some (GoError.errorf msg))) :
    ∃ pre ns post, namespaces = pre ++ ns :: post ∧
      (pre.map (fun ns => ns.Typ)).Nodup ∧ (∀ x ∈ pre, x.Typ ∉ seen) ∧
      (∀ x ∈ pre, ∃ n, namespaceMap.lookup x.Typ = some n) ∧
      tr = calls ++ shareDirectives pre ∧
      (((ns.Typ ∈ seen ∨ ns.Typ ∈ pre.map (fun ns => ns.Typ)) ∧
          msg = "duplicate namespace " ++ ns.Typ) ∨
        (ns.Typ ∉ seen ∧ ns.Typ ∉ pre.map (fun ns => ns.Typ) ∧
          namespaceMap.lookup ns.Typ = none ∧ msg = "unsupported namespace " ++ ns.Typ)) := by
  induction namespaces generalizing seen cloneNamespaces calls with
  | nil =>
    rw [configureNamespacesFrom] at h
    cases hs : SetConfigItem calls "lxc.namespace.clone" (" ".intercalate cloneNamespaces) <;>
      simp [hs] at h
  | cons ns rest ih =>
    rw [configureNamespacesFrom] at h
    by_cases hns : ns.Typ ∈ seen
    · rw [if_pos hns] at h
      simp only [Prod.mk.injEq, Option.some.injEq, GoError.errorf.injEq] at h
      exact ⟨[], ns, rest, rfl, by simp, by simp, by simp, by simp [shareDirectives_nil, h.1],
        Or.inl ⟨Or.inl hns, h.2.symm⟩⟩
    · rw [if_neg hns] at h
      cases hn : namespaceMap.lookup ns.Typ with
      | none =>
        rw [hn] at h
        simp only [Prod.mk.injEq, Option.some.injEq, GoError.errorf.injEq] at h
        exact ⟨[], ns, rest, rfl, by simp, by simp, by simp,
          by simp [shareDirectives_nil, h.1], Or.inr ⟨hns, by simp, hn, h.2.symm⟩⟩
      | some n =>
        rw [hn] at h
        simp only at h
        have key : ∀ cl cs, configureNamespacesFrom SetConfigItem rest (ns.Typ :: seen) cl cs =
            (tr, some (GoError.errorf msg)) →
            ∃ pre x post, ns :: rest = pre ++ x :: post ∧
              (pre.map (fun ns => ns.Typ)).Nodup ∧ (∀ y ∈ pre, y.Typ ∉ seen) ∧
              (∀ y ∈ pre, ∃ n, namespaceMap.lookup y.Typ = some n) ∧
              tr = cs ++ shareDirectives (pre.tail) ∧
              (((x.Typ ∈ seen ∨ x.Typ ∈ pre.map (fun ns => ns.Typ)) ∧
                  msg = "duplicate namespace " ++ x.Typ) ∨
                (x.Typ ∉ seen ∧ x.Typ ∉ pre.map (fun ns => ns.Typ) ∧
                  namespaceMap.lookup x.Typ = none ∧
                  msg = "unsupported namespace " ++ x.Typ)) ∧
              pre.head? = some ns := by
          intro cl cs hrun
          obtain ⟨pre, x, post, hl, hnd, hsn, hrg, htr, hcase⟩ := ih _ _ _ hrun
          refine ⟨ns :: pre, x, post, by rw [hl]; rfl, ?_, ?_, ?_, by simpa using htr, ?_, rfl⟩
          · rw [List.map_cons, List.nodup_cons]
            refine ⟨?_, hnd⟩
            intro hmem
            obtain ⟨y, hy, hyt⟩ := List.mem_map.mp hmem
            exact hsn y hy (by rw [hyt]; exact List.mem_cons_self _ _)
          · intro y hy
            rcases List.mem_cons.mp hy with rfl | hy
            · exact hns
            · exact fun hmem => hsn y hy (List.mem_cons_of_mem _ hmem)
          · intro y hy
            rcases List.mem_cons.mp hy with rfl | hy
            · exact ⟨n, hn⟩
            · exact hrg y hy
          · rcases hcase with ⟨hd, hm⟩ | ⟨h1, h2, h3, h4⟩
            · refine Or.inl ⟨?_, hm⟩
              rcases hd with hd | hd
              · rcases List.mem_cons.mp hd with hd | hd
                · exact Or.inr (by rw [List.map_cons, hd]; exact List.mem_cons_self _ _)
                · exact Or.inl hd
              · exact Or.inr (by rw [List.map_cons]; exact List.mem_cons_of_mem _ hd)
            · refine Or.inr ⟨fun hmem => h1 (List.mem_cons_of_mem _ hmem), ?_, h3, h4⟩
              rw [List.map_cons]
              intro hmem
              rcases List.mem_cons.mp hmem with hd | hd
              · exact h1 (by rw [hd]; exact List.mem_cons_self _ _)
              · exact h2 hd
        by_cases hp : ns.Path = ""
        · rw [if_pos hp] at h
          obtain ⟨pre, x, post, hl, hnd, hsn, hrg, htr, hcase, hhead⟩ := key _ _ h
          refine ⟨pre, x, post, hl, hnd, hsn, hrg, ?_, hcase⟩
          cases pre with
          | nil => simp at hhead
          | cons y pre =>
            simp only [List.head?_cons, Option.some.injEq] at hhead
            subst hhead
            rw [shareDirectives_cons_empty _ _ hp]
            simpa using htr
        · rw [if_neg hp] at h
          cases hs : SetConfigItem calls ("lxc.namespace.share." ++ n.Name) ns.Path with
          | some err => rw [hs] at h; simp at h
          | none =>
            rw [hs] at h
            simp only at h
            obtain ⟨pre, x, post, hl, hnd, hsn, hrg, htr, hcase, hhead⟩ := key _ _ h
            refine ⟨pre, x, post, hl, hnd, hsn, hrg, ?_, hcase⟩
            cases pre with
            | nil => simp at hhead
            | cons y pre =>
              simp only [List.head?_cons, Option.some.injEq] at hhead
              subst hhead
              rw [shareDirectives_cons_path _ _ n hn hp]
              simpa using htr

/-- Whatever the sink does, a run that returns no error went through a list in which
no kind repeats, none was seen before and every kind is registered. -/
theorem configureNamespacesFrom_ok (SetConfigItem : ConfigSink)
    (namespaces : List LinuxNamespace) (seen : List LinuxNamespaceType)
    (cloneNamespaces : List String) (calls tr : List (String × String))
    (h : configureNamespacesFrom SetConfigItem namespaces seen cloneNamespaces calls =
      (tr, none)) :
    (namespaces.map (fun ns => ns.Typ)).Nodup ∧ (∀ x ∈ namespaces, x.Typ ∉ seen) ∧
      ∀ x ∈ namespaces, ∃ n, namespaceMap.lookup x.Typ = some n := by
  induction namespaces generalizing seen cloneNamespaces calls with
  | nil => simp
  | cons ns rest ih =>
    rw [configureNamespacesFrom] at h
    by_cases hns : ns.Typ ∈ seen
    · rw [if_pos hns] at h; simp at h
    · rw [if_neg hns] at h
      cases hn : namespaceMap.lookup ns.Typ with
      | none => rw [hn] at h; simp at h
      | some n =>
        rw [hn] at h
        simp only at h
        have key : ∀ cl cs, configureNamespacesFrom SetConfigItem rest (ns.Typ :: seen) cl cs =
            (tr, none) →
            ((ns :: rest).map (fun ns => ns.Typ)).Nodup ∧ (∀ x ∈ ns :: rest, x.Typ ∉ seen) ∧
              ∀ x ∈ ns :: rest, ∃ n, namespaceMap.lookup x.Typ = some n := by
          intro cl cs hrun
          obtain ⟨hnd, hsn, hrg⟩ := ih _ _ _ hrun
          refine ⟨?_, ?_, ?_⟩
          · rw [List.map_cons, List.nodup_cons]
            refine ⟨?_, hnd⟩
            intro hmem
            obtain ⟨y, hy, hyt⟩ := List.mem_map.mp hmem
            exact hsn y hy (by rw [hyt]; exact List.mem_cons_self _ _)
          · intro y hy
            rcases List.mem_cons.mp hy with rfl | hy
            · exact hns
            · exact fun hmem => hsn y hy (List.mem_cons_of_mem _ hmem)
          · intro y hy
            rcases List.mem_cons.mp hy with rfl | hy
            · exact ⟨n, hn⟩
            · exact hrg y hy
        by_cases hp : ns.Path = ""
        · rw [if_pos hp] at h
          exact key _ _ h
        · rw [if_neg hp] at h
          cases hs : SetConfigItem calls ("lxc.namespace.share." ++ n.Name) ns.Path with
          | some err => rw [hs] at h; simp at h
          | none =>
            rw [hs] at h
            exact key _ _ h

/-- With a sink that accepts every write, the run stops at the first request that
repeats an earlier kind or has an unregistered kind, with the sharing calls of the
requests before it and the error of that request. -/
theorem configureNamespaces_first_offending (SetConfigItem : ConfigSink)
    (hsink : ∀ h k v, SetConfigItem h k v = none) (c : Container)
    (pre : List LinuxNamespace) (ns : LinuxNamespace) (post : List LinuxNamespace)
    (hl : c.Linux.Namespaces = pre ++ ns :: post) (hpre : ValidRequests pre) :
    (ns.Typ ∈ pre.map (fun x => x.Typ) →
      configureNamespaces SetConfigItem c =
        (shareDirectives pre, some (GoError.errorf ("duplicate namespace " ++ ns.Typ)))) ∧
    (ns.Typ ∉ pre.map (fun x => x.Typ) → namespaceMap.lookup ns.Typ = none →
      configureNamespaces SetConfigItem c =
        (shareDirectives pre, some (GoError.errorf ("unsupported namespace " ++ ns.Typ)))) := by
  have hrun := configureNamespacesFrom_valid_append SetConfigItem hsink pre (ns :: post) [] [] []
    hpre.1 (by simp) hpre.2
  rw [configureNamespaces, hl, hrun, configureNamespacesFrom]
  constructor
  · intro hmem
    rw [if_pos (by simpa using hmem)]
    simp
  · intro hmem hnone
    rw [if_neg (by simpa using hmem), hnone]
    simp

/-! ## Claims on configureNamespaces -/

/-- C3, as stated, fails: the requests time, pid, pid contain two requests of the
kind pid, and `configureNamespaces` returns the unsupported-namespace error for time,
not the duplicate-namespace error for pid. -/
theorem configureNamespaces_duplicate_counterexample :
    configureNamespaces (fun _ _ _ => none)
        { Process := ⟨⟨0, 0⟩⟩,
          Linux := { Namespaces :=
            [⟨"time", ""⟩, ⟨"pid", "/proc/1/ns/pid"⟩, ⟨"pid", "/proc/2/ns/pid"⟩] } } =
      ([], some (GoError.errorf "unsupported namespace time")) ∧
    GoError.errorf "unsupported namespace time" ≠ GoError.errorf "duplicate namespace pid" := by
  constructor
  · rfl
  · decide

/-- C3, amended: a request list in which some kind occurs twice always makes
`configureNamespaces` fail; when the sink accepts every write and the requests before
the first repeating one have registered kinds, the error is the duplicate-namespace
error for the kind of that request, whatever the paths of the requests are. -/
theorem configureNamespaces_rejects_duplicate (SetConfigItem : ConfigSink) (c : Container)
    (hdup : ¬ (c.Linux.Namespaces.map (fun x => x.Typ)).Nodup) :
    (configureNamespaces SetConfigItem c).2 ≠ none ∧
    ∀ (pre : List LinuxNamespace) (ns : LinuxNamespace) (post : List LinuxNamespace),
      (∀ h k v, SetConfigItem h k v = none) →
      c.Linux.Namespaces = pre ++ ns :: post → ValidRequests pre →
      ns.Typ ∈ pre.map (fun x => x.Typ) →
      (configureNamespaces SetConfigItem c).2 =
        some (GoError.errorf ("duplicate namespace " ++ ns.Typ)) := by
  constructor
  · intro hnone
    have hrun : configureNamespacesFrom SetConfigItem c.Linux.Namespaces [] [] [] =
        ((configureNamespaces SetConfigItem c).1, none) := by
      rw [← hnone]; rfl
    exact hdup (configureNamespacesFrom_ok _ _ _ _ _ _ hrun).1
  · intro pre ns post hsink hl hpre hmem
    rw [(configureNamespaces_first_offending SetConfigItem hsink c pre ns post hl hpre).1 hmem]

/-- Witness of C3 on the requests pid, network, pid with three different paths. -/
theorem configureNamespaces_rejects_duplicate_witness :
    ¬ (["pid", "network", "pid"] : List String).Nodup ∧
    (configureNamespaces (fun _ _ _ => none)
      { Process := ⟨⟨0, 0⟩⟩,
        Linux := { Namespaces :=
          [⟨"pid", "/proc/1/ns/pid"⟩, ⟨"network", ""⟩, ⟨"pid", "/proc/2/ns/pid"⟩] } }).2 ≠
      none ∧
    (configureNamespaces (fun _ _ _ => none)
      { Process := ⟨⟨0, 0⟩⟩,
        Linux := { Namespaces :=
          [⟨"pid", "/proc/1/ns/pid"⟩, ⟨"network", ""⟩, ⟨"pid", "/proc/2/ns/pid"⟩] } }).2 =
      some (GoError.errorf ("duplicate namespace " ++ "pid")) :=
  ⟨by decide,
    (configureNamespaces_rejects_duplicate (fun _ _ _ => none)
      { Process := ⟨⟨0, 0⟩⟩,
        Linux := { Namespaces :=
          [⟨"pid", "/proc/1/ns/pid"⟩, ⟨"network", ""⟩, ⟨"pid", "/proc/2/ns/pid"⟩] } }
      (by decide)).1,
    (configureNamespaces_rejects_duplicate (fun _ _ _ => none)
      { Process := ⟨⟨0, 0⟩⟩,
        Linux := { Namespaces :=
          [⟨"pid", "/proc/1/ns/pid"⟩, ⟨"network", ""⟩, ⟨"pid", "/proc/2/ns/pid"⟩] } }
      (by decide)).2 [⟨"pid", "/proc/1/ns/pid"⟩, ⟨"network", ""⟩] ⟨"pid", "/proc/2/ns/pid"⟩ []
      (fun _ _ _ => rfl) rfl
      ⟨by decide, fun ns hns => (lookup_isSome_iff ns.Typ).mpr (by
        simp only [List.mem_cons, List.mem_singleton, List.mem_nil_iff, or_false] at hns
        rcases hns with rfl | rfl <;> decide)⟩
      (by decide)⟩

/-- C4: for a request list with no repeated kind and only registered kinds, and a
sink that accepts every write, `configureNamespaces` succeeds and its sink writes are
the sharing directive of each request with a non-empty path, in request order,
followed by one `lxc.namespace.clone` directive whose value is the backend names of
the requests with an empty path, in request order, joined by single spaces; the
backend names are cgroup, ipc, mnt, net, pid, user and uts. -/
theorem configureNamespaces_valid_calls (SetConfigItem : ConfigSink) (c : Container)
    (hnodup : (c.Linux.Namespaces.map (fun x => x.Typ)).Nodup)
    (hreg : ∀ ns ∈ c.Linux.Namespaces,
      ns.Typ ∈ ["cgroup", "ipc", "mount", "network", "pid", "user", "uts"])
    (hsink : ∀ h k v, SetConfigItem h k v = none) :
    configureNamespaces SetConfigItem c =
      (((c.Linux.Namespaces.filter (fun ns => ns.Path ≠ "")).map
          (fun ns => ("lxc.namespace.share." ++ backendName ns, ns.Path))) ++
        [("lxc.namespace.clone",
          " ".intercalate ((c.Linux.Namespaces.filter (fun ns => ns.Path = "")).map
            backendName))],
        none) ∧
    ["cgroup", "ipc", "mount", "network", "pid", "user", "uts"].map
        (fun t => backendName ⟨t, ""⟩) =
      ["cgroup", "ipc", "mnt", "net", "pid", "user", "uts"] := by
  have hreg2 : ∀ ns ∈ c.Linux.Namespaces, ∃ n, namespaceMap.lookup ns.Typ = some n :=
    fun ns hns => (lookup_isSome_iff ns.Typ).mpr (hreg ns hns)
  have hrun := configureNamespacesFrom_valid_append SetConfigItem hsink c.Linux.Namespaces []
    [] [] [] hnodup (by simp) hreg2
  refine ⟨?_, by decide⟩
  rw [configureNamespaces, ← List.append_nil c.Linux.Namespaces, hrun, configureNamespacesFrom,
    hsink]
  simp [shareDirectives, cloneNames]

/-- Witness of C4 on the requests pid (cloned), network (shared), mount (cloned). -/
theorem configureNamespaces_valid_calls_witness :
    configureNamespaces (fun _ _ _ => none)
        { Process := ⟨⟨0, 0⟩⟩,
          Linux := { Namespaces :=
            [⟨"pid", ""⟩, ⟨"network", "/proc/1/ns/net"⟩, ⟨"mount", ""⟩] } } =
      ([("lxc.namespace.share.net", "/proc/1/ns/net"), ("lxc.namespace.clone", "pid mnt")],
        none) :=
  (configureNamespaces_valid_calls (fun _ _ _ => none)
    { Process := ⟨⟨0, 0⟩⟩,
      Linux := { Namespaces :=
        [⟨"pid", ""⟩, ⟨"network", "/proc/1/ns/net"⟩, ⟨"mount", ""⟩] } }
    (by decide) (by decide) (fun _ _ _ => rfl)).1.trans (by decide)

/-- C5, as stated, fails: the one-request list network with a path is valid and has
no empty path, yet with a sink that rejects the sharing directive
`configureNamespaces` returns the error of the sink and makes no
`lxc.namespace.clone` write. -/
theorem configureNamespaces_clone_directive_counterexample :
    configureNamespaces (fun _ _ _ => some "rejected")
        { Process := ⟨⟨0, 0⟩⟩,
          Linux := { Namespaces := [⟨"network", "/proc/1/ns/net"⟩] } } =
      ([("lxc.namespace.share.net", "/proc/1/ns/net")], some (GoError.sink "rejected")) ∧
    ([("lxc.namespace.share.net", "/proc/1/ns/net")].filter
      (fun kv : String × String => kv.1 = "lxc.namespace.clone")).length = 0 := by
  constructor
  · rfl
  · decide

/-- C5, amended: for a valid request list in which no request has an empty path and
a sink that accepts every write, `configureNamespaces` succeeds and writes exactly one
`lxc.namespace.clone` directive, the last write, with the empty string as value; for
the empty request list, and any sink, that directive is the only call made. -/
theorem configureNamespaces_empty_clone_directive (SetConfigItem : ConfigSink)
    (c : Container) (hvalid : ValidRequests c.Linux.Namespaces)
    (hpaths : ∀ ns ∈ c.Linux.Namespaces, ns.Path ≠ "")
    (hsink : ∀ h k v, SetConfigItem h k v = none) :
    configureNamespaces SetConfigItem c =
      (shareDirectives c.Linux.Namespaces ++ [("lxc.namespace.clone", "")], none) ∧
    (configureNamespaces SetConfigItem c).1.filter
        (fun kv => kv.1 = "lxc.namespace.clone") = [("lxc.namespace.clone", "")] ∧
    ∀ (anySink : ConfigSink) (c0 : Container), c0.Linux.Namespaces = [] →
      (configureNamespaces anySink c0).1 = [("lxc.namespace.clone", "")] := by
  have hrun := configureNamespacesFrom_valid_append SetConfigItem hsink c.Linux.Namespaces []
    [] [] [] hvalid.1 (by simp) hvalid.2
  have hclone : cloneNames c.Linux.Namespaces = [] := by
    rw [cloneNames, List.map_eq_nil_iff, List.filter_eq_nil_iff]
    intro ns hns
    simpa using hpaths ns hns
  have hres : configureNamespaces SetConfigItem c =
      (shareDirectives c.Linux.Namespaces ++ [("lxc.namespace.clone", "")], none) := by
    rw [configureNamespaces, ← List.append_nil c.Linux.Namespaces, hrun,
      configureNamespacesFrom, hsink, hclone]
    simp [String.intercalate]
  refine ⟨hres, ?_, ?_⟩
  · rw [hres]
    simp only [List.filter_append]
    have hnone : (shareDirectives c.Linux.Namespaces).filter
        (fun kv => kv.1 = "lxc.namespace.clone") = [] := by
      rw [List.filter_eq_nil_iff]
      intro kv hkv
      simpa using shareDirectives_key_ne_clone _ kv hkv
    rw [hnone]
    simp [List.filter]
  · intro anySink c0 h0
    rw [configureNamespaces, h0, configureNamespacesFrom]
    simp [String.intercalate]

/-- Witness of C5 on the requests network and pid, both with a path. -/
theorem configureNamespaces_empty_clone_directive_witness :
    configureNamespaces (fun _ _ _ => none)
        { Process := ⟨⟨0, 0⟩⟩,
          Linux := { Namespaces :=
            [⟨"network", "/proc/1/ns/net"⟩, ⟨"pid", "/proc/1/ns/pid"⟩] } } =
      ([("lxc.namespace.share.net", "/proc/1/ns/net"),
        ("lxc.namespace.share.pid", "/proc/1/ns/pid"), ("lxc.namespace.clone", "")], none) :=
  (configureNamespaces_empty_clone_directive (fun _ _ _ => none)
    { Process := ⟨⟨0, 0⟩⟩,
      Linux := { Namespaces :=
        [⟨"network", "/proc/1/ns/net"⟩, ⟨"pid", "/proc/1/ns/pid"⟩] } }
    ⟨by decide, fun ns hns => (lookup_isSome_iff ns.Typ).mpr (by
      simp only [List.mem_cons, List.mem_singleton, List.mem_nil_iff, or_false] at hns
      rcases hns with rfl | rfl <;> decide)⟩
    (by decide) (fun _ _ _ => rfl)).1.trans (by decide)

/-- C6: whenever `configureNamespaces` fails with the duplicate or the unsupported
error, the failing request is the first one, at the position after `pre`, that repeats
an earlier kind or has an unregistered kind; the sink writes made are exactly the
sharing directives of the requests before it with a non-empty path, in request order,
and no `lxc.namespace.clone` directive is among them. -/
theorem configureNamespaces_failure_calls (SetConfigItem : ConfigSink) (c : Container)
    (msg : String)
    (hfail : (configureNamespaces SetConfigItem c).2 = some (GoError.errorf msg)) :
    ∃ (pre : List LinuxNamespace) (ns : LinuxNamespace) (post : List LinuxNamespace),
      c.Linux.Namespaces = pre ++ ns :: post ∧ ValidRequests pre ∧
      ((ns.Typ ∈ pre.map (fun x => x.Typ) ∧ msg = "duplicate namespace " ++ ns.Typ) ∨
        (ns.Typ ∉ pre.map (fun x => x.Typ) ∧ namespaceMap.lookup ns.Typ = none ∧
          msg = "unsupported namespace " ++ ns.Typ)) ∧
      (configureNamespaces SetConfigItem c).1 =
        (pre.filter (fun x => x.Path ≠ "")).map
          (fun x => ("lxc.namespace.share." ++ backendName x, x.Path)) ∧
      ∀ kv ∈ (configureNamespaces SetConfigItem c).1, kv.1 ≠ "lxc.namespace.clone" := by
  have hrun : configureNamespacesFrom SetConfigItem c.Linux.Namespaces [] [] [] =
      ((configureNamespaces SetConfigItem c).1, some (GoError.errorf msg)) := by
    rw [← hfail]; rfl
  obtain ⟨pre, ns, post, hl, hnd, _, hrg, htr, hcase⟩ :=
    configureNamespacesFrom_errorf _ _ _ _ _ _ _ hrun
  rw [List.nil_append] at htr
  refine ⟨pre, ns, post, hl, ⟨hnd, hrg⟩, ?_, htr, ?_⟩
  · rcases hcase with ⟨hd, hm⟩ | ⟨_, h2, h3, h4⟩
    · rcases hd with hd | hd
      · simp at hd
      · exact Or.inl ⟨hd, hm⟩
    · exact Or.inr ⟨h2, h3, h4⟩
  · rw [htr]
    exact shareDirectives_key_ne_clone pre

/-- Witness of C6 on the requests network (shared), pid (cloned), pid, which fail
with the duplicate error at the third request. -/
theorem configureNamespaces_failure_calls_witness :
    (configureNamespaces (fun _ _ _ => none)
      { Process := ⟨⟨0, 0⟩⟩,
        Linux := { Namespaces :=
          [⟨"network", "/proc/1/ns/net"⟩, ⟨"pid", ""⟩, ⟨"pid", ""⟩] } }).2 =
      some (GoError.errorf "duplicate namespace pid") ∧
    ∃ (pre : List LinuxNamespace) (ns : LinuxNamespace) (post : List LinuxNamespace),
      [(⟨"network", "/proc/1/ns/net"⟩ : LinuxNamespace), ⟨"pid", ""⟩, ⟨"pid", ""⟩] =
        pre ++ ns :: post ∧ ValidRequests pre ∧
      ((ns.Typ ∈ pre.map (fun x => x.Typ) ∧
          "duplicate namespace pid" = "duplicate namespace " ++ ns.Typ) ∨
        (ns.Typ ∉ pre.map (fun x => x.Typ) ∧ namespaceMap.lookup ns.Typ = none ∧
          "duplicate namespace pid" = "unsupported namespace " ++ ns.Typ)) ∧
      (configureNamespaces (fun _ _ _ => none)
        { Process := ⟨⟨0, 0⟩⟩,
          Linux := { Namespaces :=
            [⟨"network", "/proc/1/ns/net"⟩, ⟨"pid", ""⟩, ⟨"pid", ""⟩] } }).1 =
        (pre.filter (fun x => x.Path ≠ "")).map
          (fun x => ("lxc.namespace.share." ++ backendName x, x.Path)) ∧
      ∀ kv ∈ (configureNamespaces (fun _ _ _ => none)
        { Process := ⟨⟨0, 0⟩⟩,
          Linux := { Namespaces :=
            [⟨"network", "/proc/1/ns/net"⟩, ⟨"pid", ""⟩, ⟨"pid", ""⟩] } }).1,
        kv.1 ≠ "lxc.namespace.clone" :=
  ⟨by rfl,
    configureNamespaces_failure_calls (fun _ _ _ => none)
      { Process := ⟨⟨0, 0⟩⟩,
        Linux := { Namespaces :=
          [⟨"network", "/proc/1/ns/net"⟩, ⟨"pid", ""⟩, ⟨"pid", ""⟩] } }
      "duplicate namespace pid" (by rfl)⟩

/-- C7, as stated, fails: in the requests pid (with a path), pid the first offending
request is the second one, a duplicate, yet with a sink that rejects the sharing
directive of the first request `configureNamespaces` returns the error of the sink. -/
theorem configureNamespaces_first_error_counterexample :
    configureNamespaces (fun _ _ _ => some "rejected")
        { Process := ⟨⟨0, 0⟩⟩,
          Linux := { Namespaces := [⟨"pid", "/proc/1/ns/pid"⟩, ⟨"pid", ""⟩] } } =
      ([("lxc.namespace.share.pid", "/proc/1/ns/pid")], some (GoError.sink "rejected")) ∧
    GoError.sink "rejected" ≠ GoError.errorf "duplicate namespace pid" := by
  constructor
  · rfl
  · decide

theorem firstRejected_of_accepting (SetConfigItem : ConfigSink)
    (hsink : ∀ h k v, SetConfigItem h k v = none) (history writes : List (String × String)) :
    firstRejected SetConfigItem history writes = none := by
  induction writes generalizing history with
  | nil => rfl
  | cons kv rest ih => rw [firstRejected, hsink]; exact ih _

/-- Whatever the sink does, the run over a valid stretch of requests either returns
the error of the first sharing directive the sink rejects, or goes on with the rest
after all the sharing directives of the stretch. -/
theorem configureNamespacesFrom_valid_prefix_error (SetConfigItem : ConfigSink)
    (pre rest : List LinuxNamespace) (seen : List LinuxNamespaceType)
    (cloneNamespaces : List String) (calls : List (String × String))
    (hnodup : (pre.map (fun ns => ns.Typ)).Nodup)
    (hseen : ∀ ns ∈ pre, ns.Typ ∉ seen)
    (hreg : ∀ ns ∈ pre, ∃ n, namespaceMap.lookup ns.Typ = some n) :
    (configureNamespacesFrom SetConfigItem (pre ++ rest) seen cloneNamespaces calls).2 =
      match firstRejected SetConfigItem calls (shareDirectives pre) with
      | some err => some (GoError.sink err)
      | none =>
        (configureNamespacesFrom SetConfigItem rest
          ((pre.map (fun ns => ns.Typ)).reverse ++ seen)
          (cloneNamespaces ++ cloneNames pre) (calls ++ shareDirectives pre)).2 := by
  induction pre generalizing seen cloneNamespaces calls with
  | nil => simp [shareDirectives_nil, cloneNames_nil, firstRejected]
  | cons ns pre ih =>
    obtain ⟨n, hn⟩ := hreg ns (List.mem_cons_self _ _)
    have hns : ns.Typ ∉ seen := hseen ns (List.mem_cons_self _ _)
    rw [List.map_cons, List.nodup_cons] at hnodup
    have hseen2 : ∀ x ∈ pre, x.Typ ∉ ns.Typ :: seen := by
      intro x hx hmem
      rcases List.mem_cons.mp hmem with h | h
      · exact hnodup.1 (h ▸ List.mem_map_of_mem (fun ns => ns.Typ) hx)
      · exact hseen x (List.mem_cons_of_mem _ hx) h
    have hreg2 : ∀ x ∈ pre, ∃ n, namespaceMap.lookup x.Typ = some n :=
      fun x hx => hreg x (List.mem_cons_of_mem _ hx)
    rw [List.cons_append, configureNamespacesFrom, if_neg hns, hn]
    simp only
    by_cases hp : ns.Path = ""
    · rw [if_pos hp, ih _ _ _ hnodup.2 hseen2 hreg2, shareDirectives_cons_empty _ _ hp,
        cloneNames_cons_empty _ _ n hn hp]
      simp
    · rw [if_neg hp, shareDirectives_cons_path _ _ n hn hp, cloneNames_cons_path _ _ hp,
        firstRejected]
      cases hs : SetConfigItem calls ("lxc.namespace.share." ++ n.Name) ns.Path with
      | some err => simp
      | none =>
        simp only
        rw [ih _ _ _ hnodup.2 hseen2 hreg2]
        simp

/-- C7, amended: the error of `configureNamespaces` is decided by the first offending
request in request order, the one after a valid stretch `pre` that repeats a kind of
`pre` or has an unregistered kind, unless the sink rejects a sharing directive
written before it. When the sink accepts the sharing directives of `pre`, and so with
a sink that accepts every write, the error is the duplicate error for the kind of that
request in the first case and the unsupported error for its kind in the second; when
the sink rejects one of them, the error of the first rejected directive is returned
instead. So pid, pid, time fails with duplicate pid and time, pid, pid with
unsupported time. -/
theorem configureNamespaces_first_error (SetConfigItem : ConfigSink) (c : Container)
    (pre : List LinuxNamespace) (ns : LinuxNamespace) (post : List LinuxNamespace)
    (hl : c.Linux.Namespaces = pre ++ ns :: post) (hpre : ValidRequests pre)
    (hoff : ns.Typ ∈ pre.map (fun x => x.Typ) ∨ namespaceMap.lookup ns.Typ = none) :
    (configureNamespaces SetConfigItem c).2 =
        (match firstRejected SetConfigItem []
            ((pre.filter (fun x => x.Path ≠ "")).map
              (fun x => ("lxc.namespace.share." ++ backendName x, x.Path))) with
          | some err => some (GoError.sink err)
          | none =>
            some (GoError.errorf
              (if ns.Typ ∈ pre.map (fun x => x.Typ) then "duplicate namespace " ++ ns.Typ
                else "unsupported namespace " ++ ns.Typ))) ∧
    ((∀ h k v, SetConfigItem h k v = none) →
      (configureNamespaces SetConfigItem c).2 =
        some (GoError.errorf
          (if ns.Typ ∈ pre.map (fun x => x.Typ) then "duplicate namespace " ++ ns.Typ
            else "unsupported namespace " ++ ns.Typ))) ∧
    (configureNamespaces (fun _ _ _ => none)
        { Process := c.Process,
          Linux := { Namespaces := [⟨"pid", ""⟩, ⟨"pid", ""⟩, ⟨"time", ""⟩] } }).2 =
      some (GoError.errorf "duplicate namespace pid") ∧
    (configureNamespaces (fun _ _ _ => none)
        { Process := c.Process,
          Linux := { Namespaces := [⟨"time", ""⟩, ⟨"pid", ""⟩, ⟨"pid", ""⟩] } }).2 =
      some (GoError.errorf "unsupported namespace time") := by
  have hrun := configureNamespacesFrom_valid_prefix_error SetConfigItem pre (ns :: post) [] []
    [] hpre.1 (by simp) hpre.2
  have hstop : (configureNamespacesFrom SetConfigItem (ns :: post)
      ((pre.map (fun ns => ns.Typ)).reverse ++ []) ([] ++ cloneNames pre)
      ([] ++ shareDirectives pre)).2 =
      some (GoError.errorf
        (if ns.Typ ∈ pre.map (fun x => x.Typ) then "duplicate namespace " ++ ns.Typ
          else "unsupported namespace " ++ ns.Typ)) := by
    rw [configureNamespacesFrom]
    by_cases hmem : ns.Typ ∈ pre.map (fun x => x.Typ)
    · rw [if_pos (by simpa using hmem), if_pos hmem]
    · rw [if_neg (by simpa using hmem), if_neg hmem, hoff.resolve_left hmem]
  have hgen : (configureNamespaces SetConfigItem c).2 =
      (match firstRejected SetConfigItem [] (shareDirectives pre) with
        | some err => some (GoError.sink err)
        | none =>
          some (GoError.errorf
            (if ns.Typ ∈ pre.map (fun x => x.Typ) then "duplicate namespace " ++ ns.Typ
              else "unsupported namespace " ++ ns.Typ))) := by
    rw [configureNamespaces, hl, hrun, hstop]
  refine ⟨hgen, ?_, by rfl, by rfl⟩
  intro hsink
  rw [hgen, firstRejected_of_accepting SetConfigItem hsink]

/-- Witness of C7 on the requests network (shared), time, network, whose first
offending request is the unsupported time: with a sink that accepts every write the
error is that of time, with a sink that rejects every write it is the error of the
sink for the sharing directive of network. -/
theorem configureNamespaces_first_error_witness :
    (configureNamespaces (fun _ _ _ => none)
      { Process := ⟨⟨0, 0⟩⟩,
        Linux := { Namespaces :=
          [⟨"network", "/proc/1/ns/net"⟩, ⟨"time", ""⟩, ⟨"network", ""⟩] } }).2 =
      some (GoError.errorf "unsupported namespace time") ∧
    (configureNamespaces (fun _ _ _ => some "rejected")
      { Process := ⟨⟨0, 0⟩⟩,
        Linux := { Namespaces :=
          [⟨"network", "/proc/1/ns/net"⟩, ⟨"time", ""⟩, ⟨"network", ""⟩] } }).2 =
      some (GoError.sink "rejected") :=
  ⟨((configureNamespaces_first_error (fun _ _ _ => none)
      { Process := ⟨⟨0, 0⟩⟩,
        Linux := { Namespaces :=
          [⟨"network", "/proc/1/ns/net"⟩, ⟨"time", ""⟩, ⟨"network", ""⟩] } }
      [⟨"network", "/proc/1/ns/net"⟩] ⟨"time", ""⟩ [⟨"network", ""⟩] rfl
      ⟨by decide, fun ns hns => (lookup_isSome_iff ns.Typ).mpr (by
        simp only [List.mem_singleton] at hns
        subst hns; decide)⟩
      (Or.inr rfl)).2.1 (fun _ _ _ => rfl)).trans (by decide),
    (configureNamespaces_first_error (fun _ _ _ => some "rejected")
      { Process := ⟨⟨0, 0⟩⟩,
        Linux := { Namespaces :=
          [⟨"network", "/proc/1/ns/net"⟩, ⟨"time", ""⟩, ⟨"network", ""⟩] } }
      [⟨"network", "/proc/1/ns/net"⟩] ⟨"time", ""⟩ [⟨"network", ""⟩] rfl
      ⟨by decide, fun ns hns => (lookup_isSome_iff ns.Typ).mpr (by
        simp only [List.mem_singleton] at hns
        subst hns; decide)⟩
      (Or.inr rfl)).1.trans (by decide)⟩

/-! ## Lemmas on the device functions -/

theorem isDeviceEnabledLoop_eq_false_iff (cur : List LinuxDevice) (dev : LinuxDevice) :
    isDeviceEnabledLoop cur dev = false ↔ countPath dev.Path cur = 0 := by
  induction cur with
  | nil => simp [isDeviceEnabledLoop, countPath]
  | cons d cur ih =>
    rw [isDeviceEnabledLoop, countPath, List.countP_cons]
    by_cases h : d.Path = dev.Path
    · simp [h]
    · rw [if_neg h, ih, countPath]
      simp [h]

theorem countPath_append (p : String) (l₁ l₂ : List LinuxDevice) :
    countPath p (l₁ ++ l₂) = countPath p l₁ + countPath p l₂ := by
  simp [countPath, List.countP_append]

theorem countPath_singleton (p : String) (d : LinuxDevice) :
    countPath p [d] = if d.Path = p then 1 else 0 := by
  simp [countPath, List.countP_cons]

theorem countPath_cons (p : String) (d : LinuxDevice) (l : List LinuxDevice) :
    countPath p (d :: l) = countPath p l + if d.Path = p then 1 else 0 := by
  simp [countPath, List.countP_cons]

theorem mem_missingDevices (mode uid gid : Nat) (devs cur : List LinuxDevice)
    (d : LinuxDevice) (hd : d ∈ missingDevices mode uid gid devs cur) :
    (∃ dev ∈ devs, d = withOwner dev mode uid gid) ∧ countPath d.Path cur = 0 := by
  induction devs generalizing cur with
  | nil => simp [missingDevices] at hd
  | cons dev rest ih =>
    rw [missingDevices] at hd
    by_cases he : isDeviceEnabledLoop cur dev = true
    · rw [if_pos he] at hd
      obtain ⟨⟨x, hx, hdx⟩, hc⟩ := ih cur hd
      exact ⟨⟨x, List.mem_cons_of_mem _ hx, hdx⟩, hc⟩
    · rw [if_neg he] at hd
      rcases List.mem_cons.mp hd with rfl | hd
      · refine ⟨⟨dev, List.mem_cons_self _ _, rfl⟩, ?_⟩
        have : isDeviceEnabledLoop cur dev = false := by simpa using he
        exact (isDeviceEnabledLoop_eq_false_iff cur dev).mp this
      · obtain ⟨⟨x, hx, hdx⟩, hc⟩ := ih _ hd
        rw [countPath_append] at hc
        exact ⟨⟨x, List.mem_cons_of_mem _ hx, hdx⟩, by omega⟩

theorem countPath_missingDevices (mode uid gid : Nat) (devs cur : List LinuxDevice)
    (hnodup : (devs.map (fun d => d.Path)).Nodup) (p : String) :
    countPath p (missingDevices mode uid gid devs cur) =
      if p ∈ devs.map (fun d => d.Path) ∧ countPath p cur = 0 then 1 else 0 := by
  induction devs generalizing cur with
  | nil => simp [missingDevices, countPath]
  | cons dev rest ih =>
    rw [List.map_cons, List.nodup_cons] at hnodup
    rw [missingDevices]
    by_cases he : isDeviceEnabledLoop cur dev = true
    · rw [if_pos he, ih cur hnodup.2]
      have hc : countPath dev.Path cur ≠ 0 := by
        intro h0
        have := (isDeviceEnabledLoop_eq_false_iff cur dev).mpr h0
        rw [he] at this
        exact Bool.noConfusion this
      by_cases hp : p = dev.Path
      · subst hp
        simp [hc]
      · simp [hp]
    · rw [if_neg he]
      have hc : countPath dev.Path cur = 0 :=
        (isDeviceEnabledLoop_eq_false_iff cur dev).mp (by simpa using he)
      rw [countPath_cons, ih _ hnodup.2, countPath_append, countPath_singleton]
      have hw : (withOwner dev mode uid gid).Path = dev.Path := rfl
      rw [hw]
      by_cases hp : dev.Path = p
      · subst hp
        simp [hnodup.1, hc]
      · have hp2 : ¬ p = dev.Path := fun h => hp h.symm
        simp [hp, hp2]

theorem addMissingDevices_ok (mode uid gid : Nat) (devs : List LinuxDevice)
    (spec : Container) (res : LinuxResources) (hres : spec.Linux.Resources = some res) :
    ∃ spec1, addMissingDevices mode uid gid devs spec = Except.ok spec1 ∧
      spec1.Process = spec.Process ∧
      spec1.Linux.Namespaces = spec.Linux.Namespaces ∧
      deviceList spec1 =
        deviceList spec ++ missingDevices mode uid gid devs (deviceList spec) ∧
      cgroupRules spec1 = res.Devices ++
        (missingDevices mode uid gid devs (deviceList spec)).map
          (fun d => deviceRule d "rwm") := by
  induction devs generalizing spec res with
  | nil =>
    exact ⟨spec, rfl, rfl, rfl, by simp [missingDevices], by
      simp [missingDevices, cgroupRules, hres]⟩
  | cons dev rest ih =>
    rw [addMissingDevices, missingDevices]
    by_cases he : isDeviceEnabledLoop (deviceList spec) dev = true
    · have he2 : isDeviceEnabled spec dev = true := he
      rw [he2, if_pos he]
      simpa using ih spec res hres
    · have he2 : isDeviceEnabled spec dev = false := by simpa using he
      rw [he2, if_neg he]
      simp only [Bool.not_false, if_true]
      have hadd : addDevice spec dev mode uid gid "rwm" =
          Except.ok { spec with Linux := { spec.Linux with
            Devices := some (deviceList spec ++ [withOwner dev mode uid gid]),
            Resources := some { res with Devices := res.Devices ++
              [deviceRule (withOwner dev mode uid gid) "rwm"] } } } := by
        simp [addDevice, addDevicePerms, hres, deviceList, withOwner, deviceRule]
      rw [hadd]
      simp only
      obtain ⟨spec1, h1, h2, h3, h4, h5⟩ := ih
        { spec with Linux := { spec.Linux with
            Devices := some (deviceList spec ++ [withOwner dev mode uid gid]),
            Resources := some { res with Devices := res.Devices ++
              [deviceRule (withOwner dev mode uid gid) "rwm"] } } }
        { res with Devices := res.Devices ++
              [deviceRule (withOwner dev mode uid gid) "rwm"] } rfl
      refine ⟨spec1, h1, h2, h3, ?_, ?_⟩
      · rw [h4]
        simp [deviceList]
      · rw [h5]
        simp [deviceList]

/-- With a resources section, `ensureDefaultDevices` returns no error; it appends the
two pty rules and then one rule per appended descriptor, and it appends the missing
default descriptors. -/
theorem ensureDefaultDevices_ok (c : Runtime) (spec : Container) (res : LinuxResources)
    (hres : spec.Linux.Resources = some res) :
    ∃ spec1, ensureDefaultDevices c spec = Except.ok (spec1, none) ∧
      spec1.Process = spec.Process ∧
      spec1.Linux.Namespaces = spec.Linux.Namespaces ∧
      deviceList spec1 = deviceList spec ++
        missingDevices 0o666 spec.Process.User.UID spec.Process.User.GID defaultDevices
          (deviceList spec) ∧
      cgroupRules spec1 = res.Devices ++ [ptmxRule, ptsRule] ++
        (missingDevices 0o666 spec.Process.User.UID spec.Process.User.GID defaultDevices
          (deviceList spec)).map (fun d => deviceRule d "rwm") := by
  obtain ⟨spec1, h1, h2, h3, h4, h5⟩ := addMissingDevices_ok 0o666 spec.Process.User.UID
    spec.Process.User.GID defaultDevices
    { spec with Linux := { spec.Linux with
        Resources := some { res with Devices := res.Devices ++ [ptmxRule, ptsRule] } } }
    { res with Devices := res.Devices ++ [ptmxRule, ptsRule] } rfl
  refine ⟨spec1, ?_, h2, h3, h4, h5⟩
  simp only [ensureDefaultDevices, addDevicePerms, hres]
  simp only [List.append_assoc, List.singleton_append, reduceCtorEq, if_false]
  have h1b := h1
  simp only [ptmxRule, ptsRule] at h1b
  rw [h1b]

theorem ensureDefaultDevices_nil_resources (c : Runtime) (spec : Container)
    (hres : spec.Linux.Resources = none) :
    ensureDefaultDevices c spec = Except.error Panic.nilDereference := by
  simp [ensureDefaultDevices, addDevicePerms, hres]

theorem defaultDevices_paths : defaultDevices.map (fun d => d.Path) = defaultPaths := by
  rfl

theorem defaultPaths_nodup : defaultPaths.Nodup := by
  decide

/-! ## Claims on ensureDefaultDevices -/

/-- C8, as stated, fails: on a spec with an empty resources section the first rule
`ensureDefaultDevices` appends has major 5 and minor 2, not a wildcard minor; only
the second rule, of major 88, has the wildcard minor. -/
theorem ensureDefaultDevices_pty_rules_counterexample :
    (rulesAfter (ensureDefaultDevices ⟨⟩
        { Process := ⟨⟨0, 0⟩⟩, Linux := { Resources := some {} } })).map
        (fun rules => rules.take 2) =
      some [⟨true, "c", some 5, some 2, "rwm"⟩, ⟨true, "c", some 88, none, "rwm"⟩] ∧
    (some 2 : Option Int) ≠ none := by
  constructor
  · rfl
  · decide

/-- C8, amended: for every container spec with a resources section,
`ensureDefaultDevices` returns no error and first appends two cgroup allow rules for
which no descriptor is appended, a character-device rule with major 5, minor 2 and
access rwm and a character-device rule with major 88, wildcard minor and access rwm;
the rules after them are those of the appended descriptors, which all have one of
the six default paths. -/
theorem ensureDefaultDevices_pty_rules (c : Runtime) (spec : Container)
    (res : LinuxResources) (hres : spec.Linux.Resources = some res) :
    ∃ (spec1 : Container) (added : List LinuxDevice),
      ensureDefaultDevices c spec = Except.ok (spec1, none) ∧
      cgroupRules spec1 = res.Devices ++
        [⟨true, "c", some 5, some 2, "rwm"⟩, ⟨true, "c", some 88, none, "rwm"⟩] ++
        added.map (fun d => ⟨true, d.Typ, some d.Major, some d.Minor, "rwm"⟩) ∧
      deviceList spec1 = deviceList spec ++ added ∧
      ∀ d ∈ added, d.Path ∈
        ["/dev/null", "/dev/zero", "/dev/full", "/dev/random", "/dev/urandom", "/dev/tty"] := by
  obtain ⟨spec1, h1, _, _, h4, h5⟩ := ensureDefaultDevices_ok c spec res hres
  refine ⟨spec1, _, h1, h5, h4, ?_⟩
  intro d hd
  obtain ⟨⟨dev, hdev, rfl⟩, _⟩ := mem_missingDevices _ _ _ _ _ _ hd
  have hpath : dev.Path ∈ defaultDevices.map (fun d => d.Path) :=
    List.mem_map_of_mem (fun d => d.Path) hdev
  rw [defaultDevices_paths] at hpath
  exact hpath

/-- Witness of C8 on a spec whose resources section holds one deny rule. -/
theorem ensureDefaultDevices_pty_rules_witness :
    ∃ (spec1 : Container) (added : List LinuxDevice),
      ensureDefaultDevices ⟨⟩
          { Process := ⟨⟨1000, 1000⟩⟩,
            Linux := { Resources := some ⟨[⟨false, "a", none, none, "rwm"⟩]⟩ } } =
        Except.ok (spec1, none) ∧
      cgroupRules spec1 = [⟨false, "a", none, none, "rwm"⟩] ++
        [⟨true, "c", some 5, some 2, "rwm"⟩, ⟨true, "c", some 88, none, "rwm"⟩] ++
        added.map (fun d => ⟨true, d.Typ, some d.Major, some d.Minor, "rwm"⟩) ∧
      deviceList spec1 =
        deviceList (Container.mk ⟨⟨1000, 1000⟩⟩
          { Resources := some ⟨[⟨false, "a", none, none, "rwm"⟩]⟩ }) ++ added ∧
      ∀ d ∈ added, d.Path ∈
        ["/dev/null", "/dev/zero", "/dev/full", "/dev/random", "/dev/urandom", "/dev/tty"] :=
  ensureDefaultDevices_pty_rules ⟨⟩
    { Process := ⟨⟨1000, 1000⟩⟩,
      Linux := { Resources := some ⟨[⟨false, "a", none, none, "rwm"⟩]⟩ } }
    ⟨[⟨false, "a", none, none, "rwm"⟩]⟩ rfl

/-- C9: on the empty spec, whose resources section is absent, `ensureDefaultDevices`
panics with a nil dereference instead of yielding 6 descriptors and 8 rules; on every
spec with no device descriptors and a resources section without rules it yields the
descriptors /dev/null (1,3), /dev/zero (1,5), /dev/full (1,7), /dev/random (1,8),
/dev/urandom (1,9), /dev/tty (5,0) in that order, each a character device with mode
0666 and the process uid and gid, and 8 rules, the 2 pty rules and one rwm allow rule
per default device, and no descriptor has the path /dev/ptmx. -/
theorem ensureDefaultDevices_empty_spec :
    ensureDefaultDevices ⟨⟩ { Process := ⟨⟨0, 0⟩⟩, Linux := {} } =
      Except.error Panic.nilDereference ∧
    ∀ (c : Runtime) (spec : Container) (res : LinuxResources),
      deviceList spec = [] → spec.Linux.Resources = some res → res.Devices = [] →
      ∃ spec1, ensureDefaultDevices c spec = Except.ok (spec1, none) ∧
        deviceList spec1 =
          [ ⟨"/dev/null", "c", 1, 3, some 0o666, some spec.Process.User.UID,
              some spec.Process.User.GID⟩,
            ⟨"/dev/zero", "c", 1, 5, some 0o666, some spec.Process.User.UID,
              some spec.Process.User.GID⟩,
            ⟨"/dev/full", "c", 1, 7, some 0o666, some spec.Process.User.UID,
              some spec.Process.User.GID⟩,
            ⟨"/dev/random", "c", 1, 8, some 0o666, some spec.Process.User.UID,
              some spec.Process.User.GID⟩,
            ⟨"/dev/urandom", "c", 1, 9, some 0o666, some spec.Process.User.UID,
              some spec.Process.User.GID⟩,
            ⟨"/dev/tty", "c", 5, 0, some 0o666, some spec.Process.User.UID,
              some spec.Process.User.GID⟩ ] ∧
        cgroupRules spec1 =
          [ ⟨true, "c", some 5, some 2, "rwm"⟩, ⟨true, "c", some 88, none, "rwm"⟩,
            ⟨true, "c", some 1, some 3, "rwm"⟩, ⟨true, "c", some 1, some 5, "rwm"⟩,
            ⟨true, "c", some 1, some 7, "rwm"⟩, ⟨true, "c", some 1, some 8, "rwm"⟩,
            ⟨true, "c", some 1, some 9, "rwm"⟩, ⟨true, "c", some 5, some 0, "rwm"⟩ ] ∧
        (deviceList spec1).length = 6 ∧ 8 ≤ (cgroupRules spec1).length ∧
        ∀ d ∈ deviceList spec1, d.Path ≠ "/dev/ptmx" := by
  refine ⟨rfl, ?_⟩
  intro c spec res hdev hres hrules
  obtain ⟨spec1, h1, _, _, h4, h5⟩ := ensureDefaultDevices_ok c spec res hres
  have hmissing : missingDevices 0o666 spec.Process.User.UID spec.Process.User.GID
      defaultDevices [] =
      [ ⟨"/dev/null", "c", 1, 3, some 0o666, some spec.Process.User.UID,
          some spec.Process.User.GID⟩,
        ⟨"/dev/zero", "c", 1, 5, some 0o666, some spec.Process.User.UID,
          some spec.Process.User.GID⟩,
        ⟨"/dev/full", "c", 1, 7, some 0o666, some spec.Process.User.UID,
          some spec.Process.User.GID⟩,
        ⟨"/dev/random", "c", 1, 8, some 0o666, some spec.Process.User.UID,
          some spec.Process.User.GID⟩,
        ⟨"/dev/urandom", "c", 1, 9, some 0o666, some spec.Process.User.UID,
          some spec.Process.User.GID⟩,
        ⟨"/dev/tty", "c", 5, 0, some 0o666, some spec.Process.User.UID,
          some spec.Process.User.GID⟩ ] := by
    rfl
  rw [hdev, hmissing, List.nil_append] at h4
  rw [hdev, hmissing, hrules] at h5
  refine ⟨spec1, h1, h4, ?_, ?_, ?_, ?_⟩
  · rw [h5]; rfl
  · rw [h4]; rfl
  · rw [h5]; simp
  · intro d hd
    rw [h4] at hd
    simp only [List.mem_cons, List.mem_singleton, List.mem_nil_iff, or_false] at hd
    rcases hd with rfl | rfl | rfl | rfl | rfl | rfl <;> simp

/-- Witness of C9 on the spec with uid 1000, gid 100, no devices and an empty
resources section. -/
theorem ensureDefaultDevices_empty_spec_witness :
    (devicesAfter (ensureDefaultDevices ⟨⟩
        { Process := ⟨⟨1000, 100⟩⟩, Linux := { Resources := some {} } })).map List.length =
      some 6 ∧
    (rulesAfter (ensureDefaultDevices ⟨⟩
        { Process := ⟨⟨1000, 100⟩⟩, Linux := { Resources := some {} } })).map List.length =
      some 8 := by
  obtain ⟨spec1, h1, _, h5, h6, _, _⟩ := ensureDefaultDevices_empty_spec.2 ⟨⟩
    { Process := ⟨⟨1000, 100⟩⟩, Linux := { Resources := some {} } } {} rfl rfl rfl
  rw [h1]
  refine ⟨?_, ?_⟩
  · show (some (deviceList spec1)).map List.length = some 6
    rw [Option.map_some', h6]
  · show (some (cgroupRules spec1)).map List.length = some 8
    rw [Option.map_some', h5]
    rfl

/-- C10: on a spec that declares /dev/null and has no resources section
`ensureDefaultDevices` panics with a nil dereference; on every spec with a resources
section it keeps the existing descriptors as a prefix of the device list, appends
only descriptors of default paths that no existing descriptor had, so that each of
the six default paths occurs max(1, number before) times afterwards and a path that
was present gets no further descriptor, and it still appends the two pty rules. -/
theorem ensureDefaultDevices_keeps_devices :
    ensureDefaultDevices ⟨⟩
        { Process := ⟨⟨0, 0⟩⟩,
          Linux := { Devices := some [⟨"/dev/null", "c", 1, 3, none, none, none⟩] } } =
      Except.error Panic.nilDereference ∧
    ∀ (c : Runtime) (spec : Container) (res : LinuxResources),
      spec.Linux.Resources = some res →
      ∃ (spec1 : Container) (added : List LinuxDevice) (rest : List LinuxDeviceCgroup),
        ensureDefaultDevices c spec = Except.ok (spec1, none) ∧
        deviceList spec1 = deviceList spec ++ added ∧
        (∀ d ∈ added, d.Path ∈ defaultPaths ∧ countPath d.Path (deviceList spec) = 0) ∧
        (∀ p ∈ defaultPaths,
          countPath p (deviceList spec1) = max 1 (countPath p (deviceList spec))) ∧
        (∀ p, 0 < countPath p (deviceList spec) →
          countPath p (deviceList spec1) = countPath p (deviceList spec)) ∧
        cgroupRules spec1 = res.Devices ++
          [⟨true, "c", some 5, some 2, "rwm"⟩, ⟨true, "c", some 88, none, "rwm"⟩] ++ rest := by
  refine ⟨rfl, ?_⟩
  intro c spec res hres
  obtain ⟨spec1, h1, _, _, h4, h5⟩ := ensureDefaultDevices_ok c spec res hres
  have hcount : ∀ p, countPath p (deviceList spec1) = countPath p (deviceList spec) +
      if p ∈ defaultPaths ∧ countPath p (deviceList spec) = 0 then 1 else 0 := by
    intro p
    rw [h4, countPath_append, countPath_missingDevices _ _ _ _ _
      (by rw [defaultDevices_paths]; exact defaultPaths_nodup), defaultDevices_paths]
  refine ⟨spec1, _, _, h1, h4, ?_, ?_, ?_, h5⟩
  · intro d hd
    obtain ⟨⟨dev, hdev, rfl⟩, hc⟩ := mem_missingDevices _ _ _ _ _ _ hd
    refine ⟨?_, hc⟩
    have hpath : dev.Path ∈ defaultDevices.map (fun d => d.Path) :=
      List.mem_map_of_mem (fun d => d.Path) hdev
    rw [defaultDevices_paths] at hpath
    exact hpath
  · intro p hp
    rw [hcount p]
    by_cases h0 : countPath p (deviceList spec) = 0
    · rw [if_pos ⟨hp, h0⟩, h0]; rfl
    · rw [if_neg (fun h => h0 h.2)]
      omega
  · intro p hp
    rw [hcount p, if_neg (fun h => by omega)]
    rfl

/-- Witness of C10 on a spec that declares /dev/null as a block device 9:9 and has
an empty resources section: the device list keeps one /dev/null descriptor. -/
theorem ensureDefaultDevices_keeps_devices_witness :
    ∃ (spec1 : Container) (added : List LinuxDevice) (rest : List LinuxDeviceCgroup),
      ensureDefaultDevices ⟨⟩
          { Process := ⟨⟨0, 0⟩⟩,
            Linux := { Devices := some [⟨"/dev/null", "b", 9, 9, none, none, none⟩],
                       Resources := some {} } } =
        Except.ok (spec1, none) ∧
      deviceList spec1 = [⟨"/dev/null", "b", 9, 9, none, none, none⟩] ++ added ∧
      countPath "/dev/null" (deviceList spec1) = 1 ∧
      cgroupRules spec1 =
        [⟨true, "c", some 5, some 2, "rwm"⟩, ⟨true, "c", some 88, none, "rwm"⟩] ++ rest := by
  obtain ⟨spec1, added, rest, h1, h2, _, h4, _, h6⟩ :=
    ensureDefaultDevices_keeps_devices.2 ⟨⟩
      { Process := ⟨⟨0, 0⟩⟩,
        Linux := { Devices := some [⟨"/dev/null", "b", 9, 9, none, none, none⟩],
                   Resources := some {} } } {} rfl
  refine ⟨spec1, added, rest, h1, h2, ?_, by simpa using h6⟩
  rw [h4 "/dev/null" (by decide)]
  rfl

/-- C11: `ensureDefaultDevices` is not infallible. On a spec whose resources section
is absent, the case its nil check is written for, it panics with a nil dereference
in its first `addDevicePerms` call; on a spec with a resources section it completes
and returns no error. -/
theorem ensureDefaultDevices_panics_without_resources :
    ensureDefaultDevices ⟨⟩
        { Process := ⟨⟨1000, 1000⟩⟩, Linux := { Devices := some [], Resources := none } } =
      Except.error Panic.nilDereference ∧
    (∀ (c : Runtime) (spec : Container), spec.Linux.Resources = none →
      ensureDefaultDevices c spec = Except.error Panic.nilDereference) ∧
    (∀ (c : Runtime) (spec : Container) (res : LinuxResources),
      spec.Linux.Resources = some res →
      ∃ spec1, ensureDefaultDevices c spec = Except.ok (spec1, none)) := by
  refine ⟨rfl, ensureDefaultDevices_nil_resources, ?_⟩
  intro c spec res hres
  obtain ⟨spec1, h1, _⟩ := ensureDefaultDevices_ok c spec res hres
  exact ⟨spec1, h1⟩

/-! ## Claims on isDeviceEnabled and addDevice -/

theorem isDeviceEnabledLoop_iff (cur : List LinuxDevice) (dev : LinuxDevice) :
    isDeviceEnabledLoop cur dev = true ↔ dev.Path ∈ cur.map (fun d => d.Path) := by
  induction cur with
  | nil => simp [isDeviceEnabledLoop]
  | cons d cur ih =>
    rw [isDeviceEnabledLoop]
    by_cases h : d.Path = dev.Path
    · simp [h]
    · have h2 : ¬ dev.Path = d.Path := fun e => h e.symm
      simp [h, h2, ih]

/-- C16: `isDeviceEnabled` returns true exactly when some descriptor of the device
list of the spec has the path of the probe; a probe with the same path gives the same
answer whatever its type, major and minor, and so does a spec whose descriptors have
the same paths in the same order. -/
theorem isDeviceEnabled_iff_same_path (spec : Container) (dev : LinuxDevice) :
    (isDeviceEnabled spec dev = true ↔
      ∃ d ∈ spec.Linux.Devices.getD [], d.Path = dev.Path) ∧
    (∀ probe : LinuxDevice, probe.Path = dev.Path →
      isDeviceEnabled spec probe = isDeviceEnabled spec dev) ∧
    (∀ spec2 : Container,
      (spec2.Linux.Devices.getD []).map (fun d => d.Path) =
        (spec.Linux.Devices.getD []).map (fun d => d.Path) →
      isDeviceEnabled spec2 dev = isDeviceEnabled spec dev) := by
  refine ⟨?_, ?_, ?_⟩
  · rw [isDeviceEnabled, isDeviceEnabledLoop_iff]
    simp [List.mem_map]
  · intro probe hp
    rw [Bool.eq_iff_iff, isDeviceEnabled, isDeviceEnabled, isDeviceEnabledLoop_iff,
      isDeviceEnabledLoop_iff, hp]
  · intro spec2 hpaths
    rw [Bool.eq_iff_iff, isDeviceEnabled, isDeviceEnabled, isDeviceEnabledLoop_iff,
      isDeviceEnabledLoop_iff, hpaths]

/-- C17: on a spec with a resources section `addDevice` appends one descriptor at the
end of the device list, the template with mode, uid and gid set to the given values,
and one allow rule at the end of the rule list, with the type, major and minor of the
template and the given access; the earlier descriptors and rules, the process and the
namespaces are unchanged, and the rule is appended whether or not the same rule is
present already, so its number of occurrences grows by one. -/
theorem addDevice_appends_descriptor_and_rule (spec : Container) (res : LinuxResources)
    (hres : spec.Linux.Resources = some res) (dev : LinuxDevice) (mode uid gid : Nat)
    (access : String) :
    ∃ spec1, addDevice spec dev mode uid gid access = Except.ok spec1 ∧
      spec1.Linux.Devices = some (spec.Linux.Devices.getD [] ++
        [{ dev with FileMode := some mode, UID := some uid, GID := some gid }]) ∧
      spec1.Linux.Resources = some { res with Devices := res.Devices ++
        [⟨true, dev.Typ, some dev.Major, some dev.Minor, access⟩] } ∧
      (cgroupRules spec1).count ⟨true, dev.Typ, some dev.Major, some dev.Minor, access⟩ =
        res.Devices.count ⟨true, dev.Typ, some dev.Major, some dev.Minor, access⟩ + 1 ∧
      spec1.Process = spec.Process ∧ spec1.Linux.Namespaces = spec.Linux.Namespaces := by
  have hadd : addDevice spec dev mode uid gid access =
      Except.ok { spec with Linux := { spec.Linux with
        Devices := some (spec.Linux.Devices.getD [] ++
          [{ dev with FileMode := some mode, UID := some uid, GID := some gid }]),
        Resources := some { res with Devices := res.Devices ++
          [⟨true, dev.Typ, some dev.Major, some dev.Minor, access⟩] } } } := by
    simp only [addDevice, addDevicePerms, hres]
  refine ⟨_, hadd, rfl, rfl, ?_, rfl, rfl⟩
  simp [cgroupRules, List.count_append]

/-- Witness of C17: /dev/fuse is added to a spec that holds /dev/null and the rule
of /dev/fuse already. -/
theorem addDevice_appends_descriptor_and_rule_witness :
    ∃ spec1, addDevice
        { Process := ⟨⟨0, 0⟩⟩,
          Linux := { Devices := some [⟨"/dev/null", "c", 1, 3, none, none, none⟩],
                     Resources := some ⟨[⟨true, "c", some 10, some 229, "rw"⟩]⟩ } }
        ⟨"/dev/fuse", "c", 10, 229, none, none, none⟩ 0o600 1 2 "rw" = Except.ok spec1 ∧
      spec1.Linux.Devices = some [⟨"/dev/null", "c", 1, 3, none, none, none⟩,
        ⟨"/dev/fuse", "c", 10, 229, some 0o600, some 1, some 2⟩] ∧
      spec1.Linux.Resources = some ⟨[⟨true, "c", some 10, some 229, "rw"⟩,
        ⟨true, "c", some 10, some 229, "rw"⟩]⟩ := by
  obtain ⟨spec1, h1, h2, h3, _⟩ := addDevice_appends_descriptor_and_rule
    { Process := ⟨⟨0, 0⟩⟩,
      Linux := { Devices := some [⟨"/dev/null", "c", 1, 3, none, none, none⟩],
                 Resources := some ⟨[⟨true, "c", some 10, some 229, "rw"⟩]⟩ } }
    ⟨[⟨true, "c", some 10, some 229, "rw"⟩]⟩ rfl
    ⟨"/dev/fuse", "c", 10, 229, none, none, none⟩ 0o600 1 2 "rw"
  exact ⟨spec1, h1, h2, h3⟩

/-! ## Running ensureDefaultDevices twice -/

theorem missingDevices_eq_nil (mode uid gid : Nat) (devs cur : List LinuxDevice)
    (h : ∀ dev ∈ devs, countPath dev.Path cur ≠ 0) :
    missingDevices mode uid gid devs cur = [] := by
  induction devs with
  | nil => rfl
  | cons dev rest ih =>
    have he : isDeviceEnabledLoop cur dev = true := by
      cases hb : isDeviceEnabledLoop cur dev with
      | true => rfl
      | false =>
        exact absurd ((isDeviceEnabledLoop_eq_false_iff cur dev).mp hb)
          (h dev (List.mem_cons_self _ _))
    rw [missingDevices, if_pos he]
    exact ih (fun d hd => h d (List.mem_cons_of_mem _ hd))

theorem resources_of_cgroupRules (spec : Container) (h : cgroupRules spec ≠ []) :
    ∃ res, spec.Linux.Resources = some res ∧ res.Devices = cgroupRules spec := by
  cases hr : spec.Linux.Resources with
  | none => simp [cgroupRules, hr] at h
  | some res => exact ⟨res, rfl, by simp [cgroupRules, hr]⟩

/-- C20: on a spec with a resources section, a second run of `ensureDefaultDevices`
leaves the device list exactly as the first run left it and appends exactly the two
pty rules to the rule list; and in a run the number of rules appended is 2 plus the
number of descriptors appended. -/
theorem ensureDefaultDevices_second_run (c c2 : Runtime) (spec : Container)
    (res : LinuxResources) (hres : spec.Linux.Resources = some res) :
    ∃ (spec1 spec2 : Container) (added : List LinuxDevice) (rules : List LinuxDeviceCgroup),
      ensureDefaultDevices c spec = Except.ok (spec1, none) ∧
      ensureDefaultDevices c2 spec1 = Except.ok (spec2, none) ∧
      deviceList spec2 = deviceList spec1 ∧
      cgroupRules spec2 = cgroupRules spec1 ++
        [⟨true, "c", some 5, some 2, "rwm"⟩, ⟨true, "c", some 88, none, "rwm"⟩] ∧
      deviceList spec1 = deviceList spec ++ added ∧
      cgroupRules spec1 = cgroupRules spec ++ rules ∧
      rules.length = 2 + added.length := by
  obtain ⟨spec1, h1, _, _, h4, h5⟩ := ensureDefaultDevices_ok c spec res hres
  have hne : cgroupRules spec1 ≠ [] := by
    rw [h5]; simp
  obtain ⟨res1, hres1, hdev1⟩ := resources_of_cgroupRules spec1 hne
  obtain ⟨spec2, g1, _, _, g4, g5⟩ := ensureDefaultDevices_ok c2 spec1 res1 hres1
  have hpresent : ∀ dev ∈ defaultDevices, countPath dev.Path (deviceList spec1) ≠ 0 := by
    intro dev hdev
    have hpath : dev.Path ∈ defaultDevices.map (fun d => d.Path) :=
      List.mem_map_of_mem (fun d => d.Path) hdev
    rw [h4, countPath_append, countPath_missingDevices _ _ _ _ _
      (by rw [defaultDevices_paths]; exact defaultPaths_nodup)]
    by_cases h0 : countPath dev.Path (deviceList spec) = 0
    · rw [if_pos ⟨hpath, h0⟩]; omega
    · omega
  have hnone := missingDevices_eq_nil 0o666 spec1.Process.User.UID spec1.Process.User.GID
    defaultDevices (deviceList spec1) hpresent
  rw [hnone] at g4 g5
  refine ⟨spec1, spec2,
    missingDevices 0o666 spec.Process.User.UID spec.Process.User.GID defaultDevices
      (deviceList spec),
    [ptmxRule, ptsRule] ++
      (missingDevices 0o666 spec.Process.User.UID spec.Process.User.GID defaultDevices
        (deviceList spec)).map (fun d => deviceRule d "rwm"),
    h1, g1, by simpa using g4, ?_, h4, ?_, ?_⟩
  · rw [g5, hdev1, List.map_nil, List.append_nil]; rfl
  · rw [h5, List.append_assoc]
    simp [cgroupRules, hres]
  · rw [List.length_append, List.length_map]; rfl

/-- Witness of C20 on a spec that declares /dev/tty and has an empty resources
section: the first run appends the five other default devices and seven rules. -/
theorem ensureDefaultDevices_second_run_witness :
    ∃ (spec1 spec2 : Container) (added : List LinuxDevice) (rules : List LinuxDeviceCgroup),
      ensureDefaultDevices ⟨⟩
          { Process := ⟨⟨0, 0⟩⟩,
            Linux := { Devices := some [⟨"/dev/tty", "c", 5, 0, none, none, none⟩],
                       Resources := some {} } } =
        Except.ok (spec1, none) ∧
      ensureDefaultDevices ⟨⟩ spec1 = Except.ok (spec2, none) ∧
      deviceList spec2 = deviceList spec1 ∧
      cgroupRules spec2 = cgroupRules spec1 ++
        [⟨true, "c", some 5, some 2, "rwm"⟩, ⟨true, "c", some 88, none, "rwm"⟩] ∧
      deviceList spec1 = [⟨"/dev/tty", "c", 5, 0, none, none, none⟩] ++ added ∧
      cgroupRules spec1 = [] ++ rules ∧
      rules.length = 2 + added.length :=
  ensureDefaultDevices_second_run ⟨⟩ ⟨⟩
    { Process := ⟨⟨0, 0⟩⟩,
      Linux := { Devices := some [⟨"/dev/tty", "c", 5, 0, none, none, none⟩],
                 Resources := some {} } } {} rfl

/-! ## Lemmas on writeDevices -/

theorem foldl_append_eq (l : List String) (a : String) :
    l.foldl (fun r s => r ++ s) a = a ++ l.foldl (fun r s => r ++ s) "" := by
  induction l generalizing a with
  | nil => simp
  | cons x xs ih =>
    rw [List.foldl_cons, List.foldl_cons, ih (a ++ x), ih ("" ++ x), String.empty_append,
      String.append_assoc]

theorem join_cons (x : String) (xs : List String) :
    String.join (x :: xs) = x ++ String.join xs := by
  rw [String.join, String.join, List.foldl_cons, foldl_append_eq, String.empty_append]

theorem writeDevicesLoop_ok (faults : IOFaults) (spec : Container) (devs : List LinuxDevice)
    (i : Nat) (content : String)
    (h : (writeDevicesLoop faults spec devs i content).2 = none) :
    (writeDevicesLoop faults spec devs i content).1 =
      content ++ String.join (devs.map (deviceLine spec)) := by
  induction devs generalizing i content with
  | nil => simp [writeDevicesLoop, String.join]
  | cons d rest ih =>
    rw [writeDevicesLoop] at h ⊢
    cases hw : faults.write i with
    | some r => rw [hw] at h; simp at h
    | none =>
      rw [hw] at h
      simp only at h ⊢
      rw [ih _ _ h, List.map_cons, join_cons, String.append_assoc]

theorem toDigitsCore_head (fuel n : Nat) (ds : List Char) (hn : 0 < n) (hf : n < fuel) :
    (Nat.toDigitsCore 8 fuel n ds).head? ≠ some '0' := by
  induction fuel generalizing n ds with
  | zero => omega
  | succ fuel ih =>
    rw [Nat.toDigitsCore]
    by_cases h8 : n / 8 = 0
    · simp only [h8, if_true]
      have hlt : n < 8 := by omega
      interval_cases n <;> rw [List.head?_cons] <;> decide
    · simp only [h8, if_false]
      exact ih (n / 8) _ (by omega) (by omega)

/-! ## Claims on writeDevices -/

/-- C12, as stated, fails: for a spec whose device list is present with zero entries
`writeDevices` creates the destination file, with an empty content. -/
theorem writeDevices_no_devices_counterexample :
    (writeDevices {} (fun _ => none) "/run/devices.txt"
        { Process := ⟨⟨0, 0⟩⟩, Linux := { Devices := some [] } }).2 = none ∧
    (writeDevices {} (fun _ => none) "/run/devices.txt"
        { Process := ⟨⟨0, 0⟩⟩, Linux := { Devices := some [] } }).1 "/run/devices.txt" =
      some "" ∧
    (fun _ => none : FileSystem) "/run/devices.txt" = none := by
  refine ⟨rfl, ?_, rfl⟩
  decide

/-- C12, amended: for every spec whose device list is absent (the nil slice) and
every destination path `writeDevices` succeeds and leaves the file system unchanged;
for a device list that is present with zero entries it creates the destination file,
empty, when the path is fresh and the file can be created. -/
theorem writeDevices_nil_devices (faults : IOFaults) (fs : FileSystem) (dst : String)
    (spec : Container) (hnil : spec.Linux.Devices = none) :
    writeDevices faults fs dst spec = (fs, none) ∧
    ∀ spec0 : Container, spec0.Linux.Devices = some [] → fs dst = none →
      faults.create = none →
      (writeDevices faults fs dst spec0).1 dst = some "" := by
  constructor
  · simp [writeDevices, hnil]
  · intro spec0 h0 hfresh hcreate
    simp only [writeDevices, h0, hfresh, hcreate, writeDevicesLoop]
    cases faults.close <;> simp

/-- Witness of C12 on the spec without a device list and an empty file system. -/
theorem writeDevices_nil_devices_witness :
    writeDevices {} (fun _ => none) "/run/devices.txt"
        { Process := ⟨⟨0, 0⟩⟩, Linux := { Devices := none } } =
      ((fun _ => none), none) :=
  (writeDevices_nil_devices {} (fun _ => none) "/run/devices.txt"
    { Process := ⟨⟨0, 0⟩⟩, Linux := { Devices := none } } rfl).1

/-- C13, as stated, fails: the descriptor /dev/zero, type c, major 1, minor 5, mode
0666, uid 0, gid 0 is written as the line `/dev/zero c 1 5 666 0:0`, the mode in
octal without a leading 0. -/
theorem writeDevices_line_counterexample :
    (writeDevices {} (fun _ => none) "/run/devices.txt"
        { Process := ⟨⟨0, 0⟩⟩,
          Linux :=
            { Devices := some [⟨"/dev/zero", "c", 1, 5, some 0o666, some 0, some 0⟩] } }).1
        "/run/devices.txt" =
      some "/dev/zero c 1 5 666 0:0\n" ∧
    "/dev/zero c 1 5 666 0:0\n" ≠ "/dev/zero c 1 5 0666 0:0\n" := by
  constructor
  · decide
  · decide

/-- C13, amended: the line of the descriptor /dev/zero, type c, major 1, minor 5,
mode 0666, uid 0, gid 0 is `/dev/zero c 1 5 666 0:0`, newline-terminated; in general
the mode field of a line is the mode of the descriptor (0600 when it has none) in
octal digits, and for a non-zero mode it does not start with the digit 0. -/
theorem deviceLine_mode_octal (spec : Container) (d : LinuxDevice) :
    deviceLine spec ⟨"/dev/zero", "c", 1, 5, some 0o666, some 0, some 0⟩ =
      "/dev/zero c 1 5 666 0:0\n" ∧
    deviceLine spec d =
      d.Path ++ " " ++ d.Typ ++ " " ++ formatInt d.Major ++ " " ++ formatInt d.Minor ++ " " ++
        formatOctal (d.FileMode.getD 0o600) ++ " " ++
        formatUint (d.UID.getD spec.Process.User.UID) ++ ":" ++
        formatUint (d.GID.getD spec.Process.User.GID) ++ "\n" ∧
    formatOctal 0o666 = "666" ∧ formatOctal 0o600 = "600" ∧
    ∀ mode : Nat, 0 < mode → (formatOctal mode).data.head? ≠ some '0' := by
  refine ⟨?_, ?_, by decide, by decide, ?_⟩
  · simp only [deviceLine]
    decide
  · cases d with
    | mk path typ major minor mode uid gid =>
      cases mode <;> cases uid <;> cases gid <;> rfl
  · intro mode hmode
    exact toDigitsCore_head (mode + 1) mode [] hmode (by omega)

/-- C14: for a spec with a device list (in particular one with at least one device)
and a file system in which the destination path exists, `writeDevices` fails with the
already-exists error and leaves the file system, and so the content of the existing
file, unchanged; consequently, of two calls with the same destination and spec in one
environment the second always fails, and it fails with the already-exists error after
a first call that returned no error, and more generally whenever the file was there
before the first call or the first call could create it. -/
theorem writeDevices_exists (faults : IOFaults) (fs : FileSystem) (dst : String)
    (spec : Container) (devices : List LinuxDevice) (content : String)
    (hdev : spec.Linux.Devices = some devices) (hexists : fs dst = some content) :
    writeDevices faults fs dst spec = (fs, some OsError.exist) ∧
    (writeDevices faults fs dst spec).1 dst = some content ∧
    (∀ (env : IOFaults) (fs0 : FileSystem),
      (writeDevices env (writeDevices env fs0 dst spec).1 dst spec).2 ≠ none) ∧
    (∀ (first second : IOFaults) (fs0 : FileSystem),
      (writeDevices first fs0 dst spec).2 = none →
      (writeDevices second (writeDevices first fs0 dst spec).1 dst spec).2 =
        some OsError.exist) ∧
    ∀ (first second : IOFaults) (fs0 : FileSystem),
      (fs0 dst ≠ none ∨ first.create = none) →
      (writeDevices second (writeDevices first fs0 dst spec).1 dst spec).2 =
        some OsError.exist := by
  have hfail : ∀ (f : IOFaults) (g : FileSystem), g dst ≠ none →
      writeDevices f g dst spec = (g, some OsError.exist) := by
    intro f g hg
    cases hgd : g dst with
    | none => exact absurd hgd hg
    | some c => simp [writeDevices, hdev, hgd]
  have hnocreate : ∀ (f : IOFaults) (g : FileSystem) (msg : String), g dst = none →
      f.create = some msg → writeDevices f g dst spec = (g, some (OsError.other msg)) := by
    intro f g msg hg hc
    simp [writeDevices, hdev, hg, hc]
  have htwice : ∀ (first second : IOFaults) (fs0 : FileSystem),
      (fs0 dst ≠ none ∨ first.create = none) →
      (writeDevices second (writeDevices first fs0 dst spec).1 dst spec).2 =
        some OsError.exist := by
    intro first second fs0 hfirst
    have hafter : (writeDevices first fs0 dst spec).1 dst ≠ none := by
      cases h0 : fs0 dst with
      | some c =>
        rw [hfail first fs0 (by rw [h0]; simp)]
        simp [h0]
      | none =>
        have hcreate : first.create = none := by
          rcases hfirst with h | h
          · exact absurd h0 h
          · exact h
        simp only [writeDevices, hdev, h0, hcreate]
        cases (writeDevicesLoop first spec devices 0 "").2 <;> simp
    rw [hfail second _ hafter]
  have h1 := hfail faults fs (by rw [hexists]; simp)
  refine ⟨h1, by rw [h1]; exact hexists, ?_, ?_, htwice⟩
  · intro env fs0
    cases h0 : fs0 dst with
    | some c => rw [htwice env env fs0 (Or.inl (by rw [h0]; simp))]; simp
    | none =>
      cases hc : env.create with
      | none => rw [htwice env env fs0 (Or.inr hc)]; simp
      | some msg =>
        rw [hnocreate env fs0 msg h0 hc]
        simp only
        rw [hnocreate env fs0 msg h0 hc]
        simp
  · intro first second fs0 hok
    apply htwice first second fs0
    cases h0 : fs0 dst with
    | some c => exact Or.inl (by simp)
    | none =>
      cases hc : first.create with
      | none => exact Or.inr rfl
      | some msg =>
        rw [hnocreate first fs0 msg h0 hc] at hok
        simp at hok

/-- Witness of C14: the destination holds an older table and the spec has one device;
the call fails and the old content stays. On a fresh destination the first of two
calls writes the table and the second fails with the already-exists error. -/
theorem writeDevices_exists_witness :
    writeDevices {}
        (fun p => if p = "/run/devices.txt" then some "/dev/null c 1 3 666 0:0\n" else none)
        "/run/devices.txt"
        { Process := ⟨⟨0, 0⟩⟩,
          Linux := { Devices := some [⟨"/dev/zero", "c", 1, 5, none, none, none⟩] } } =
      ((fun p => if p = "/run/devices.txt" then some "/dev/null c 1 3 666 0:0\n" else none),
        some OsError.exist) ∧
    (writeDevices {}
        (writeDevices {} (fun _ => none) "/run/devices.txt"
          { Process := ⟨⟨0, 0⟩⟩,
            Linux := { Devices := some [⟨"/dev/zero", "c", 1, 5, none, none, none⟩] } }).1
        "/run/devices.txt"
        { Process := ⟨⟨0, 0⟩⟩,
          Linux := { Devices := some [⟨"/dev/zero", "c", 1, 5, none, none, none⟩] } }).2 =
      some OsError.exist :=
  ⟨(writeDevices_exists {}
      (fun p => if p = "/run/devices.txt" then some "/dev/null c 1 3 666 0:0\n" else none)
      "/run/devices.txt"
      { Process := ⟨⟨0, 0⟩⟩,
        Linux := { Devices := some [⟨"/dev/zero", "c", 1, 5, none, none, none⟩] } }
      [⟨"/dev/zero", "c", 1, 5, none, none, none⟩] "/dev/null c 1 3 666 0:0\n" rfl
      (by decide)).1,
    (writeDevices_exists {}
      (fun p => if p = "/run/devices.txt" then some "/dev/null c 1 3 666 0:0\n" else none)
      "/run/devices.txt"
      { Process := ⟨⟨0, 0⟩⟩,
        Linux := { Devices := some [⟨"/dev/zero", "c", 1, 5, none, none, none⟩] } }
      [⟨"/dev/zero", "c", 1, 5, none, none, none⟩] "/dev/null c 1 3 666 0:0\n" rfl
      (by decide)).2.2.2.1 {} {} (fun _ => none) (by rfl)⟩

/-- C15: for a spec with a device list (in particular a non-empty one) and a fresh
destination, when `writeDevices` succeeds the destination file holds exactly the
lines of the descriptors, in device-list order, each newline-terminated, and every
other path is as before; in each line the uid, gid and mode fields are those of the
descriptor when present and otherwise the process uid, the process gid and 0600. -/
theorem writeDevices_content (faults : IOFaults) (fs : FileSystem) (dst : String)
    (spec : Container) (devices : List LinuxDevice)
    (hdev : spec.Linux.Devices = some devices) (hfresh : fs dst = none)
    (hok : (writeDevices faults fs dst spec).2 = none) :
    (writeDevices faults fs dst spec).1 dst =
      some (String.join (devices.map (fun d =>
        d.Path ++ " " ++ d.Typ ++ " " ++ formatInt d.Major ++ " " ++ formatInt d.Minor ++
          " " ++ formatOctal (d.FileMode.getD 0o600) ++ " " ++
          formatUint (d.UID.getD spec.Process.User.UID) ++ ":" ++
          formatUint (d.GID.getD spec.Process.User.GID) ++ "\n"))) ∧
    ∀ p, p ≠ dst → (writeDevices faults fs dst spec).1 p = fs p := by
  have hline : (fun d : LinuxDevice =>
      d.Path ++ " " ++ d.Typ ++ " " ++ formatInt d.Major ++ " " ++ formatInt d.Minor ++
        " " ++ formatOctal (d.FileMode.getD 0o600) ++ " " ++
        formatUint (d.UID.getD spec.Process.User.UID) ++ ":" ++
        formatUint (d.GID.getD spec.Process.User.GID) ++ "\n") = deviceLine spec := by
    funext d
    cases d with
    | mk path typ major minor mode uid gid =>
      cases mode <;> cases uid <;> cases gid <;> rfl
  rw [hline]
  simp only [writeDevices, hdev, hfresh] at hok ⊢
  cases hcreate : faults.create with
  | some msg => rw [hcreate] at hok; simp at hok
  | none =>
    rw [hcreate] at hok
    simp only at hok ⊢
    cases hloop : (writeDevicesLoop faults spec devices 0 "").2 with
    | some err => rw [hloop] at hok; simp at hok
    | none =>
      have hcontent := writeDevicesLoop_ok faults spec devices 0 "" hloop
      rw [String.empty_append] at hcontent
      simp only [hcontent]
      constructor
      · simp
      · intro p hp
        simp [hp]

/-- Witness of C15 on a spec with uid 1000, gid 100 and two devices, the second
without mode, uid and gid. -/
theorem writeDevices_content_witness :
    (writeDevices {} (fun _ => none) "/run/devices.txt"
      { Process := ⟨⟨1000, 100⟩⟩,
        Linux := { Devices := some [⟨"/dev/zero", "c", 1, 5, some 0o666, some 0, some 0⟩,
          ⟨"/dev/sda", "b", 8, 0, none, none, none⟩] } }).1 "/run/devices.txt" =
      some "/dev/zero c 1 5 666 0:0\n/dev/sda b 8 0 600 1000:100\n" :=
  (writeDevices_content {} (fun _ => none) "/run/devices.txt"
    { Process := ⟨⟨1000, 100⟩⟩,
      Linux := { Devices := some [⟨"/dev/zero", "c", 1, 5, some 0o666, some 0, some 0⟩,
        ⟨"/dev/sda", "b", 8, 0, none, none, none⟩] } }
    [⟨"/dev/zero", "c", 1, 5, some 0o666, some 0, some 0⟩,
      ⟨"/dev/sda", "b", 8, 0, none, none, none⟩] rfl rfl (by decide)).1.trans (by decide)

/-! ## Claims on setHostname -/

/-- C18: in every run of `setHostname`, `sethostname` is performed only when both
opens and the switch into the foreign namespace succeeded; whenever the switch into
the foreign namespace is attempted, the switch back to the own handle follows it and
comes before the one unlock, whatever `sethostname` returned; the trace starts with
the lock and ends with the only unlock on every exit path; and the outcome of the
restoring switch changes neither the trace nor the returned error. -/
theorem setHostname_trace (sys : Syscalls) (quote : String → String)
    (nsPath hostname : String) :
    (∀ name, Op.sethostname name ∈ (setHostname sys quote nsPath hostname).1 →
      sys.openForeign = none ∧ sys.openSelf = none ∧ sys.setnsForeign = none) ∧
    (sys.openForeign = none → sys.openSelf = none →
      Op.setnsForeign ∈ (setHostname sys quote nsPath hostname).1) ∧
    (Op.setnsForeign ∈ (setHostname sys quote nsPath hostname).1 →
      ∃ pre mid post, (setHostname sys quote nsPath hostname).1 =
          pre ++ [Op.setnsForeign] ++ mid ++ [Op.setnsSelf] ++ post ++ [Op.unlockOSThread] ∧
        Op.unlockOSThread ∉ pre ∧ Op.unlockOSThread ∉ mid ∧ Op.unlockOSThread ∉ post ∧
        Op.setnsSelf ∉ pre) ∧
    (∃ body, (setHostname sys quote nsPath hostname).1 =
        [Op.lockOSThread] ++ body ++ [Op.unlockOSThread] ∧ Op.unlockOSThread ∉ body) ∧
    (∀ restore : Option String,
      setHostname { sys with setnsSelf := restore } quote nsPath hostname =
        setHostname sys quote nsPath hostname) ∧
    (∀ err, sys.openForeign = none → sys.openSelf = none → sys.setnsForeign = none →
      sys.sethostname = some err →
      (setHostname sys quote nsPath hostname).2 =
        some (GoError.errorf ("unix.Sethostname failed: " ++ err))) := by
  obtain ⟨openForeign, openSelf, setnsForeign, sethostname, setnsSelf⟩ := sys
  refine ⟨?_, ?_, ?_, ?_, ?_, ?_⟩
  · intro name
    cases openForeign <;> cases openSelf <;> cases setnsForeign <;> cases sethostname <;>
      simp [setHostname]
  · intro h1 h2
    simp only at h1 h2
    subst h1 h2
    cases setnsForeign <;> cases sethostname <;> simp [setHostname]
  · intro hmem
    cases openForeign with
    | some e => simp [setHostname] at hmem
    | none =>
      cases openSelf with
      | some e => simp [setHostname] at hmem
      | none =>
        cases setnsForeign with
        | some e =>
          exact ⟨[Op.lockOSThread, Op.openForeign nsPath, Op.openSelf], [],
            [Op.closeSelf, Op.closeForeign], by simp [setHostname], by simp, by simp,
            by simp, by simp⟩
        | none =>
          cases sethostname with
          | some e =>
            exact ⟨[Op.lockOSThread, Op.openForeign nsPath, Op.openSelf],
              [Op.sethostname hostname], [Op.closeSelf, Op.closeForeign],
              by simp [setHostname], by simp, by simp, by simp, by simp⟩
          | none =>
            exact ⟨[Op.lockOSThread, Op.openForeign nsPath, Op.openSelf],
              [Op.sethostname hostname], [Op.closeSelf, Op.closeForeign],
              by simp [setHostname], by simp, by simp, by simp, by simp⟩
  · cases openForeign with
    | some e => exact ⟨[Op.openForeign nsPath], by simp [setHostname], by simp⟩
    | none =>
      cases openSelf with
      | some e =>
        exact ⟨[Op.openForeign nsPath, Op.openSelf, Op.closeForeign],
          by simp [setHostname], by simp⟩
      | none =>
        cases setnsForeign with
        | some e =>
          exact ⟨[Op.openForeign nsPath, Op.openSelf, Op.setnsForeign, Op.setnsSelf,
            Op.closeSelf, Op.closeForeign], by simp [setHostname], by simp⟩
        | none =>
          cases sethostname with
          | some e =>
            exact ⟨[Op.openForeign nsPath, Op.openSelf, Op.setnsForeign,
              Op.sethostname hostname, Op.setnsSelf, Op.closeSelf, Op.closeForeign],
              by simp [setHostname], by simp⟩
          | none =>
            exact ⟨[Op.openForeign nsPath, Op.openSelf, Op.setnsForeign,
              Op.sethostname hostname, Op.setnsSelf, Op.closeSelf, Op.closeForeign],
              by simp [setHostname], by simp⟩
  · intro restore
    rfl
  · intro err h1 h2 h3 h4
    simp only at h1 h2 h3 h4
    subst h1 h2 h3 h4
    rfl

/-! ## Clone flags as bits -/

theorem cloneFlag_eq_two_pow (t : LinuxNamespaceType) (n : Namespace)
    (h : namespaceMap.lookup t = some n) : n.CloneFlag = 2 ^ kindBit t := by
  have hmem := (lookup_isSome_iff t).mp ⟨n, h⟩
  simp only [registeredKinds, List.mem_cons, List.mem_singleton, List.mem_nil_iff,
    or_false] at hmem
  rcases hmem with rfl | rfl | rfl | rfl | rfl | rfl | rfl <;>
    · have hn : some n = _ := h.symm.trans (by rfl)
      injection hn with hn
      subst hn
      decide

theorem kindBit_injective (t₁ t₂ : LinuxNamespaceType) (h₁ : t₁ ∈ registeredKinds)
    (h₂ : t₂ ∈ registeredKinds) (h : kindBit t₁ = kindBit t₂) : t₁ = t₂ := by
  simp only [registeredKinds, List.mem_cons, List.mem_singleton, List.mem_nil_iff,
    or_false] at h₁ h₂
  rcases h₁ with rfl | rfl | rfl | rfl | rfl | rfl | rfl <;>
    rcases h₂ with rfl | rfl | rfl | rfl | rfl | rfl | rfl <;>
    first
      | rfl
      | exact absurd h (by decide)

theorem and_two_pow_eq_iff (x j : Nat) : x &&& 2 ^ j = 2 ^ j ↔ x.testBit j = true := by
  constructor
  · intro h
    have := congrArg (fun y => y.testBit j) h
    simpa [Nat.testBit_two_pow_self] using this
  · intro h
    apply Nat.eq_of_testBit_eq
    intro i
    rw [Nat.testBit_and, Nat.testBit_two_pow]
    by_cases hji : j = i
    · subst hji
      simp [h]
    · simp [hji]

theorem testBit_orOfFlags (l : List LinuxNamespace)
    (hreg : ∀ ns ∈ l, ns.Typ ∈ registeredKinds) (j : Nat) :
    (orOfFlags l).testBit j = true ↔ ∃ ns ∈ l, kindBit ns.Typ = j := by
  induction l with
  | nil => simp [orOfFlags]
  | cons ns rest ih =>
    obtain ⟨n, hn⟩ := (lookup_isSome_iff ns.Typ).mpr (hreg ns (List.mem_cons_self _ _))
    have hflag : registeredFlag ns = 2 ^ kindBit ns.Typ := by
      rw [registeredFlag, hn]
      exact cloneFlag_eq_two_pow _ _ hn
    rw [orOfFlags_cons, Nat.testBit_or, Bool.or_eq_true,
      ih (fun x hx => hreg x (List.mem_cons_of_mem _ hx)), hflag, Nat.testBit_two_pow]
    simp

theorem cloneFlags_fst_of_registered (l : List LinuxNamespace)
    (hreg : ∀ ns ∈ l, ns.Typ ∈ registeredKinds) : (cloneFlags l).1 = orOfFlags l := by
  rw [cloneFlags, cloneFlagsLoop_registered l
    (fun ns hns => (lookup_isSome_iff ns.Typ).mpr (hreg ns hns)) 0, Nat.zero_or]

theorem testBit_orOfFlags_kind (l : List LinuxNamespace)
    (hreg : ∀ ns ∈ l, ns.Typ ∈ registeredKinds) (k : LinuxNamespaceType)
    (hk : k ∈ registeredKinds) :
    (orOfFlags l).testBit (kindBit k) = true ↔ k ∈ l.map (fun ns => ns.Typ) := by
  rw [testBit_orOfFlags l hreg, List.mem_map]
  constructor
  · rintro ⟨ns, hns, hbit⟩
    exact ⟨ns, hns, kindBit_injective _ _ (hreg ns hns) hk hbit⟩
  · rintro ⟨ns, hns, rfl⟩
    exact ⟨ns, hns, rfl⟩

/-! ## Claims on the clone flags as a set -/

/-- C19: the seven registered clone flags are non-zero and pairwise bit-disjoint;
for two request lists of registered kinds `cloneFlags` returns the same bitmask
exactly when the lists contain the same set of kinds; and the flag of a registered
kind is set in the returned bitmask exactly when that kind occurs in the list. -/
theorem cloneFlags_injective_on_kind_sets :
    (∀ e ∈ namespaceMap, e.2.CloneFlag ≠ 0) ∧
    namespaceMap.Pairwise (fun a b => a.2.CloneFlag &&& b.2.CloneFlag = 0) ∧
    (∀ l₁ l₂ : List LinuxNamespace,
      (∀ ns ∈ l₁, ns.Typ ∈ ["cgroup", "ipc", "mount", "network", "pid", "user", "uts"]) →
      (∀ ns ∈ l₂, ns.Typ ∈ ["cgroup", "ipc", "mount", "network", "pid", "user", "uts"]) →
      ((cloneFlags l₁).1 = (cloneFlags l₂).1 ↔
        ∀ k, k ∈ l₁.map (fun ns => ns.Typ) ↔ k ∈ l₂.map (fun ns => ns.Typ))) ∧
    (∀ (l : List LinuxNamespace) (ns : LinuxNamespace),
      (∀ x ∈ l, x.Typ ∈ ["cgroup", "ipc", "mount", "network", "pid", "user", "uts"]) →
      ns.Typ ∈ ["cgroup", "ipc", "mount", "network", "pid", "user", "uts"] →
      ((cloneFlags l).1 &&& registeredFlag ns = registeredFlag ns ↔
        ns.Typ ∈ l.map (fun x => x.Typ))) := by
  refine ⟨by decide, by decide, ?_, ?_⟩
  · intro l₁ l₂ h₁ h₂
    rw [cloneFlags_fst_of_registered l₁ h₁, cloneFlags_fst_of_registered l₂ h₂]
    constructor
    · intro heq k
      constructor
      · intro hk
        obtain ⟨ns, hns, rfl⟩ := List.mem_map.mp hk
        have := (testBit_orOfFlags_kind l₁ h₁ ns.Typ (h₁ ns hns)).mpr hk
        rw [heq] at this
        exact (testBit_orOfFlags_kind l₂ h₂ ns.Typ (h₁ ns hns)).mp this
      · intro hk
        obtain ⟨ns, hns, rfl⟩ := List.mem_map.mp hk
        have := (testBit_orOfFlags_kind l₂ h₂ ns.Typ (h₂ ns hns)).mpr hk
        rw [← heq] at this
        exact (testBit_orOfFlags_kind l₁ h₁ ns.Typ (h₂ ns hns)).mp this
    · intro hsame
      apply Nat.eq_of_testBit_eq
      intro j
      rw [Bool.eq_iff_iff, testBit_orOfFlags l₁ h₁, testBit_orOfFlags l₂ h₂]
      constructor
      · rintro ⟨ns, hns, hbit⟩
        obtain ⟨x, hx, hxt⟩ := List.mem_map.mp
          ((hsame ns.Typ).mp (List.mem_map_of_mem (fun ns => ns.Typ) hns))
        exact ⟨x, hx, by rw [hxt]; exact hbit⟩
      · rintro ⟨ns, hns, hbit⟩
        obtain ⟨x, hx, hxt⟩ := List.mem_map.mp
          ((hsame ns.Typ).mpr (List.mem_map_of_mem (fun ns => ns.Typ) hns))
        exact ⟨x, hx, by rw [hxt]; exact hbit⟩
  · intro l ns hl hns
    obtain ⟨n, hn⟩ := (lookup_isSome_iff ns.Typ).mpr hns
    have hflag : registeredFlag ns = 2 ^ kindBit ns.Typ := by
      rw [registeredFlag, hn]
      exact cloneFlag_eq_two_pow _ _ hn
    rw [cloneFlags_fst_of_registered l hl, hflag, and_two_pow_eq_iff,
      testBit_orOfFlags_kind l hl ns.Typ hns]

end Lxcontainer
